import Mathlib

/-!
Verification development for the FireSentinel detection pipeline
(src/firesentinel).  The Python source is shallowly embedded:

* Python floats are modelled as exact rationals (`ℚ`); Python ints as `ℤ`.
* `haversine_distance` (ingestion/roads.py) is a pure transcendental
  function; it is modelled as an explicit distance-function parameter
  `dist : ℚ × ℚ → ℚ × ℚ → ℚ` threaded through dedup and clustering,
  so every theorem holds for the actual haversine distance as a special
  case.  Where a claim needs a metric fact (`dist p p = 0`, or the
  bounding-box padding covering every point within tolerance) it is an
  explicit hypothesis.
* `uuid.uuid4()` is modelled as a fresh-identifier counter: generated
  identifiers are consecutive integers distinct from each other (uuid4
  collisions are assumed absent, as the code does).
* `datetime.date` is a day number (`ℤ`), `datetime.time` is minutes
  since midnight (`ℤ`); `datetime.combine` is `day * 1440 + minutes`.
* Python `round` is round-half-to-even on the exact rational value
  (`pyRound` below), matching CPython semantics up to the usual binary
  floating-point representation error, which no claim depends on.
-/

/-- Round-half-to-even, the semantics of Python's builtin `round`. -/
def pyRound (q : ℚ) : ℤ :=
  if q - (⌊q⌋ : ℚ) < 1/2 then ⌊q⌋
  else if q - (⌊q⌋ : ℚ) > 1/2 then ⌊q⌋ + 1
  else if ⌊q⌋ % 2 = 0 then ⌊q⌋ else ⌊q⌋ + 1

/-- Minimum of a list of rationals, Python `min` (0 on the empty list,
which the source never hits). -/
def listMinQ : List ℚ → ℚ
  | [] => 0
  | h :: t => t.foldl min h

/-- Maximum of a list of rationals, Python `max` (0 on the empty list,
which the source never hits). -/
def listMaxQ : List ℚ → ℚ
  | [] => 0
  | h :: t => t.foldl max h

/-- Maximum of a list of integers, Python `max` (0 on the empty list,
which the source never hits). -/
def listMaxZ : List ℤ → ℤ
  | [] => 0
  | h :: t => t.foldl max h

/-- Minimum of a list of integers, Python `min` (0 on the empty list,
which the source never hits). -/
def listMinZ : List ℤ → ℤ
  | [] => 0
  | h :: t => t.foldl min h

/-!  ## Core data types (core/types.py)  -/

/-- RawHotspot (core/types.py): one satellite detection.  `source` is the
FIRMS source string (`Source.value` in the Python enum); `acqDate` is a
day number; `acqTime` is minutes since midnight. -/
structure RawHotspot where
  source : String
  latitude : ℚ
  longitude : ℚ
  brightness : ℚ
  brightness2 : ℚ
  frp : ℚ
  confidence : String
  acqDate : ℤ
  acqTime : ℤ
  satellite : String
  daynight : String
deriving DecidableEq, Repr

/-- WeatherContext (core/types.py). -/
structure WeatherContext where
  cape : ℚ
  convectiveInhibition : ℚ
  weatherCode : ℤ
  temperatureC : ℚ
  windSpeedKmh : ℚ
  humidityPct : ℚ
  precipitationMm6h : ℚ
  precipitationMm72h : ℚ
  hasThunderstorm : Bool
deriving DecidableEq, Repr

/-- RoadContext (core/types.py). -/
structure RoadContext where
  nearestDistanceM : ℚ
  nearestRoadType : String
  nearestRoadRef : Option String
deriving DecidableEq, Repr

/-- EnrichedHotspot (core/types.py): a hotspot plus optional weather and
road context. -/
structure EnrichedHotspot where
  hotspot : RawHotspot
  weather : Option WeatherContext := none
  road : Option RoadContext := none
deriving DecidableEq, Repr

/-- Severity (core/types.py). -/
inductive Severity where
  | low
  | medium
  | high
  | critical
deriving DecidableEq, Repr

/-- Numeric rank of a severity tier for the LOW < MEDIUM < HIGH < CRITICAL
ordering used by the spec's monotonicity property. -/
def sevRank : Severity → ℕ
  | .low => 0
  | .medium => 1
  | .high => 2
  | .critical => 3

/-- IntentLabel (core/types.py). -/
inductive IntentLabel where
  | natural
  | uncertain
  | suspicious
  | likelyIntentional
deriving DecidableEq, Repr

/-- IntentBreakdown (core/types.py): six per-signal integer scores plus
signal-availability counters. -/
structure IntentBreakdown where
  lightningScore : ℤ
  roadScore : ℤ
  nightScore : ℤ
  historyScore : ℤ
  multiPointScore : ℤ
  dryConditionsScore : ℤ
  activeSignals : ℕ
  totalSignals : ℕ
deriving DecidableEq, Repr

/-- IntentBreakdown.total (core/types.py): sum of the six signal scores. -/
def IntentBreakdown.total (b : IntentBreakdown) : ℤ :=
  b.lightningScore + b.roadScore + b.nightScore + b.historyScore
    + b.multiPointScore + b.dryConditionsScore

/-- IntentBreakdown.label (core/types.py): four fixed score bands. -/
def IntentBreakdown.label (b : IntentBreakdown) : IntentLabel :=
  if b.total ≤ 25 then .natural
  else if b.total ≤ 50 then .uncertain
  else if b.total ≤ 75 then .suspicious
  else .likelyIntentional

/-!  ## Deduplication (processing/dedup.py)  -/

/-- DedupConfig (config.py): spatial tolerance in meters, temporal
tolerance in minutes. -/
structure DedupConfig where
  spatialToleranceM : ℚ
  temporalToleranceMinutes : ℚ
deriving DecidableEq, Repr

/-- Hotspot ORM record (db/models.py) as stored by `store_hotspots`.
The uuid primary key is modelled as an integer. -/
structure StoredHotspot where
  id : ℤ
  source : String
  latitude : ℚ
  longitude : ℚ
  brightness : ℚ
  brightness2 : ℚ
  frp : ℚ
  confidence : String
  acqDate : ℤ
  acqTime : ℤ
  daynight : String
  satellite : String
deriving DecidableEq, Repr

/-- A distance function over (latitude, longitude) pairs; stands for
`haversine_distance` (ingestion/roads.py), returning meters. -/
abbrev DistFn : Type := ℚ × ℚ → ℚ × ℚ → ℚ

/-- dedup._bbox_padding_degrees: `(tolerance_m / 111_000.0) * 1.5`. -/
def bboxPaddingDegrees (toleranceM : ℚ) : ℚ :=
  toleranceM / 111000 * (3 / 2)

/-- The dedup temporal check (dedup.py lines 143-146): absolute
minute-of-day difference with wraparound at midnight. -/
def timeDiffWrapped (a b : ℤ) : ℤ :=
  let d := |a - b|
  if d > 720 then 1440 - d else d

/-- The per-candidate duplicate loop of `deduplicate` (dedup.py lines
128-150): the candidate is a duplicate when some existing record in its
(source, date) group is within the spatial tolerance and within the
temporal tolerance. -/
def isDuplicate (dist : DistFn) (cfg : DedupConfig) (hs : RawHotspot)
    (candidates : List StoredHotspot) : Bool :=
  candidates.any fun ex =>
    decide (dist (hs.latitude, hs.longitude) (ex.latitude, ex.longitude)
        ≤ cfg.spatialToleranceM)
    && decide (timeDiffWrapped hs.acqTime ex.acqTime
        ≤ cfg.temporalToleranceMinutes)

/-- The coordinate part of the dedup range query (dedup.py lines 95-107):
whether a stored hotspot lies inside the padded bounding box of the
batch. -/
def inDedupBBox (cfg : DedupConfig) (batch : List RawHotspot)
    (ex : StoredHotspot) : Bool :=
  let padding := bboxPaddingDegrees cfg.spatialToleranceM
  let lats := batch.map (·.latitude)
  let lons := batch.map (·.longitude)
  decide (listMinQ lats - padding ≤ ex.latitude)
    && decide (ex.latitude ≤ listMaxQ lats + padding)
    && decide (listMinQ lons - padding ≤ ex.longitude)
    && decide (ex.longitude ≤ listMaxQ lons + padding)

/-- The batched range query of `deduplicate` (dedup.py lines 87-111):
keep stored hotspots whose acquisition date occurs in the batch and whose
coordinates lie in the padded bounding box of the batch. -/
def dedupBBoxFilter (cfg : DedupConfig) (batch : List RawHotspot)
    (store : List StoredHotspot) : List StoredHotspot :=
  store.filter fun ex =>
    (batch.any fun h => h.acqDate == ex.acqDate) && inDedupBBox cfg batch ex

/-- The (source, acq_date) group lookup of `deduplicate` (dedup.py lines
113-123): grouping the query result by key and fetching the candidate's
group is the same as filtering the query result by the candidate's source
and date (group order preserves query order). -/
def dedupCandidates (cfg : DedupConfig) (batch : List RawHotspot)
    (store : List StoredHotspot) (hs : RawHotspot) : List StoredHotspot :=
  (dedupBBoxFilter cfg batch store).filter fun ex =>
    ex.source == hs.source && ex.acqDate == hs.acqDate

/-- deduplicate (dedup.py): returns the candidates that have no stored
match within tolerance.  The `store` argument models the whole hotspot
table; the function itself performs the bounding-box query. -/
def deduplicate (dist : DistFn) (cfg : DedupConfig)
    (store : List StoredHotspot) (hotspots : List RawHotspot) :
    List RawHotspot :=
  if hotspots.isEmpty then []
  else
    hotspots.filter fun hs =>
      ! isDuplicate dist cfg hs (dedupCandidates cfg hotspots store hs)

/-- The ORM record built for one raw hotspot by `store_hotspots`
(dedup.py lines 191-206), with a generated identity. -/
def toStored (i : ℤ) (hs : RawHotspot) : StoredHotspot where
  id := i
  source := hs.source
  latitude := hs.latitude
  longitude := hs.longitude
  brightness := hs.brightness
  brightness2 := hs.brightness2
  frp := hs.frp
  confidence := hs.confidence
  acqDate := hs.acqDate
  acqTime := hs.acqTime
  daynight := hs.daynight
  satellite := hs.satellite

/-- The record-construction loop of store_hotspots (dedup.py lines
185-207): convert each raw hotspot to an ORM record with a freshly
generated identity.  `uuid.uuid4()` is modelled by consecutive integers
starting at `nextId`.  The flush that actually persists the rows, and
the unique constraint it enforces, are modelled by
`storeHotspotsFlush` below. -/
def storeHotspots (nextId : ℤ) : List RawHotspot → List StoredHotspot
  | [] => []
  | hs :: rest => toStored nextId hs :: storeHotspots (nextId + 1) rest

/-- The columns of the hotspots table's unique constraint
(db/models.py: UniqueConstraint on source, latitude, longitude,
acq_date, acq_time). -/
def hotspotKey (ex : StoredHotspot) : String × ℚ × ℚ × ℤ × ℤ :=
  (ex.source, ex.latitude, ex.longitude, ex.acqDate, ex.acqTime)

/-- The `session.flush()` ending store_hotspots (dedup.py line 209)
together with the hotspots table's unique constraint: the flush persists
the built records only when the combined table rows stay key-distinct;
otherwise the database raises IntegrityError and nothing is inserted. -/
def storeHotspotsFlush (store : List StoredHotspot) (nextId : ℤ)
    (hotspots : List RawHotspot) : Except String (List StoredHotspot) :=
  let records := storeHotspots nextId hotspots
  if ((store ++ records).map hotspotKey).Nodup then .ok (store ++ records)
  else .error "IntegrityError: UNIQUE constraint failed"

/-!  ## Clustering (processing/clustering.py)  -/

/-- Severity count ranges (config.py `SeverityRangeConfig`): inclusive
[lo, hi] bounds for the medium and high tiers and the lower bound of the
critical tier (`critical: [10, null]` means 10+; the low range is never
consulted by `calculate_severity`). -/
structure SeverityRangeConfig where
  mediumLo : ℤ
  mediumHi : ℤ
  highLo : ℤ
  highHi : ℤ
  criticalLo : ℤ
deriving DecidableEq, Repr

/-- ClusteringConfig (config.py). -/
structure ClusteringConfig where
  spatialRadiusM : ℚ
  temporalWindowHours : ℤ
  severity : SeverityRangeConfig
  criticalFrpThresholdMw : ℚ
deriving DecidableEq, Repr

/-- calculate_severity (clustering.py lines 28-55). -/
def calculateSeverity (cfg : ClusteringConfig) (hotspotCount : ℤ)
    (maxFrp : ℚ) : Severity :=
  if maxFrp > cfg.criticalFrpThresholdMw then .critical
  else if hotspotCount ≥ cfg.severity.criticalLo then .critical
  else if cfg.severity.highLo ≤ hotspotCount ∧ hotspotCount ≤ cfg.severity.highHi
    then .high
  else if cfg.severity.mediumLo ≤ hotspotCount ∧ hotspotCount ≤ cfg.severity.mediumHi
    then .medium
  else .low

/-- calculate_centroid (clustering.py lines 58-73): unweighted mean of
member coordinates, (0, 0) on the empty list. -/
def calculateCentroid (hotspots : List EnrichedHotspot) : ℚ × ℚ :=
  match hotspots with
  | [] => (0, 0)
  | _ =>
    ((hotspots.map (·.hotspot.latitude)).sum / hotspots.length,
     (hotspots.map (·.hotspot.longitude)).sum / hotspots.length)

/-- _hotspot_datetime (clustering.py lines 76-85): `datetime.combine`
of the acquisition date and time, in minutes. -/
def hotspotDatetime (hs : EnrichedHotspot) : ℤ :=
  hs.hotspot.acqDate * 1440 + hs.hotspot.acqTime

/-- Stable insertion step for `sortByDatetime`. -/
def insertByDt (hs : EnrichedHotspot) : List EnrichedHotspot → List EnrichedHotspot
  | [] => [hs]
  | h :: t =>
    if hotspotDatetime hs ≤ hotspotDatetime h then hs :: h :: t
    else h :: insertByDt hs t

/-- Python `sorted(hotspots, key=_hotspot_datetime)` (clustering.py line
169), modelled as a stable insertion sort on the same key (Python's sort
is stable, so the two agree element for element). -/
def sortByDatetime : List EnrichedHotspot → List EnrichedHotspot
  | [] => []
  | h :: t => insertByDt h (sortByDatetime t)

/-- FireEvent ORM record (db/models.py) as used by clustering.  The uuid
primary key is modelled by `EventId` below on the dataclass side; here it
is an integer. -/
structure DBFireEvent where
  id : ℤ
  centerLat : ℚ
  centerLon : ℚ
  severity : Severity
  hotspotCount : ℤ
  maxFrp : ℚ
  firstDetectedAt : ℤ
  lastUpdatedAt : ℤ
  isActive : Bool
deriving DecidableEq, Repr

/-- Identity of a returned FireEvent: either the id of the pre-existing
store event it merged into, or a freshly generated uuid (modelled as a
counter value, distinct by construction from every store id). -/
inductive EventId where
  | db (i : ℤ)
  | fresh (n : ℤ)
deriving DecidableEq, Repr

/-- FireEvent dataclass (core/types.py) as produced by clustering. -/
structure FireEvent where
  id : EventId
  centerLat : ℚ
  centerLon : ℚ
  hotspots : List EnrichedHotspot
  severity : Severity
  maxFrp : ℚ
  firstDetected : ℤ
  lastUpdated : ℤ
  isActive : Bool
deriving DecidableEq, Repr

/-- One working cluster of `cluster_hotspots`: the member list built this
cycle plus the pre-existing store event it was seeded from, if any. -/
abbrev Cluster : Type := List EnrichedHotspot × Option DBFireEvent

/-- The store-event assignment loop of `cluster_hotspots` (clustering.py
lines 190-202): scan the db-seeded clusters in store order, append the
hotspot to the first one whose stored centroid is within the spatial
radius.  Returns `none` when no store event matches. -/
def assignToDb (dist : DistFn) (radius : ℚ) (hs : EnrichedHotspot) :
    List Cluster → Option (List Cluster)
  | [] => none
  | c :: rest =>
    match c.2 with
    | some ev =>
      if dist (hs.hotspot.latitude, hs.hotspot.longitude)
          (ev.centerLat, ev.centerLon) ≤ radius then
        some ((c.1 ++ [hs], c.2) :: rest)
      else
        (assignToDb dist radius hs rest).map (c :: ·)
    | none => (assignToDb dist radius hs rest).map (c :: ·)

/-- The in-memory assignment loop of `cluster_hotspots` (clustering.py
lines 207-235): scan every cluster in order, skip empty member lists,
and append the hotspot to the first cluster whose running member centroid
is within the spatial radius and that has a member within the temporal
window. -/
def assignToMemory (dist : DistFn) (radius : ℚ) (windowMinutes : ℤ)
    (hs : EnrichedHotspot) : List Cluster → Option (List Cluster)
  | [] => none
  | c :: rest =>
    if c.1 ≠ [] ∧
        dist (hs.hotspot.latitude, hs.hotspot.longitude)
          (calculateCentroid c.1) ≤ radius ∧
        c.1.any (fun m =>
          |hotspotDatetime hs - hotspotDatetime m| ≤ windowMinutes) then
      some ((c.1 ++ [hs], c.2) :: rest)
    else
      (assignToMemory dist radius windowMinutes hs rest).map (c :: ·)

/-- Assignment of one hotspot (clustering.py lines 186-239): store events
first, then in-memory clusters, else a brand-new cluster. -/
def assignHotspot (dist : DistFn) (radius : ℚ) (windowMinutes : ℤ)
    (clusters : List Cluster) (hs : EnrichedHotspot) : List Cluster :=
  match assignToDb dist radius hs clusters with
  | some cs => cs
  | none =>
    match assignToMemory dist radius windowMinutes hs clusters with
    | some cs => cs
    | none => clusters ++ [([hs], none)]

/-- The whole assignment phase of `cluster_hotspots`: db-seeded clusters
in store order, then each sorted hotspot assigned in turn. -/
def finalClusters (dist : DistFn) (cfg : ClusteringConfig)
    (dbEvents : List DBFireEvent) (hotspots : List EnrichedHotspot) :
    List Cluster :=
  let initial : List Cluster := dbEvents.map (fun ev => ([], some ev))
  (sortByDatetime hotspots).foldl
    (assignHotspot dist cfg.spatialRadiusM (cfg.temporalWindowHours * 60))
    initial

/-- Python `max(h.hotspot.frp for h in cluster_hs_list)` (clustering.py
line 249). -/
def maxFrpOf (l : List EnrichedHotspot) : ℚ :=
  listMaxQ (l.map (·.hotspot.frp))

/-- The merged store record for a db-seeded cluster (clustering.py lines
255-280): count-weighted centroid, total count, combined peak FRP,
recomputed severity, extended last-updated timestamp. -/
def mergedUpdate (cfg : ClusteringConfig) (ev : DBFireEvent)
    (members : List EnrichedHotspot) : DBFireEvent :=
  let centroid := calculateCentroid members
  let totalCount := ev.hotspotCount + members.length
  let combinedMaxFrp := max (maxFrpOf members) ev.maxFrp
  let mergedLat := (ev.centerLat * ev.hotspotCount
    + centroid.1 * members.length) / totalCount
  let mergedLon := (ev.centerLon * ev.hotspotCount
    + centroid.2 * members.length) / totalCount
  { ev with
    centerLat := mergedLat
    centerLon := mergedLon
    hotspotCount := totalCount
    maxFrp := combinedMaxFrp
    severity := calculateSeverity cfg totalCount combinedMaxFrp
    lastUpdatedAt := max (listMaxZ (members.map hotspotDatetime))
      ev.lastUpdatedAt }

/-- The FireEvent returned for a db-seeded cluster (clustering.py lines
282-294): merged fields, the current-batch members only, the stored
first-detected timestamp and the already-updated last-updated
timestamp. -/
def mergedEvent (cfg : ClusteringConfig) (ev : DBFireEvent)
    (members : List EnrichedHotspot) : FireEvent :=
  let updated := mergedUpdate cfg ev members
  { id := .db ev.id
    centerLat := updated.centerLat
    centerLon := updated.centerLon
    hotspots := members
    severity := updated.severity
    maxFrp := updated.maxFrp
    firstDetected := ev.firstDetectedAt
    lastUpdated := updated.lastUpdatedAt
    isActive := true }

/-- The FireEvent created for a brand-new cluster (clustering.py lines
295-327): unweighted centroid, member count, member peak FRP, member
timestamp range, a freshly generated identity. -/
def newEvent (cfg : ClusteringConfig) (freshId : ℤ)
    (members : List EnrichedHotspot) : FireEvent :=
  let centroid := calculateCentroid members
  let maxFrp := maxFrpOf members
  let datetimes := members.map hotspotDatetime
  { id := .fresh freshId
    centerLat := centroid.1
    centerLon := centroid.2
    hotspots := members
    severity := calculateSeverity cfg members.length maxFrp
    maxFrp := maxFrp
    firstDetected := listMinZ datetimes
    lastUpdated := listMaxZ datetimes
    isActive := true }

/-- The event-building phase of `cluster_hotspots` (clustering.py lines
241-327): skip empty clusters; merge db-seeded clusters into their store
event and create new events otherwise.  Returns the result event list
and the list of updated store records; `freshId` is the uuid counter for
new events. -/
def buildEvents (cfg : ClusteringConfig) :
    ℤ → List Cluster → List FireEvent × List DBFireEvent
  | _, [] => ([], [])
  | freshId, c :: rest =>
    match c.1 with
    | [] => buildEvents cfg freshId rest
    | _ :: _ =>
      match c.2 with
      | some ev =>
        let built := buildEvents cfg freshId rest
        (mergedEvent cfg ev c.1 :: built.1, mergedUpdate cfg ev c.1 :: built.2)
      | none =>
        let built := buildEvents cfg (freshId + 1) rest
        (newEvent cfg freshId c.1 :: built.1, built.2)

/-- cluster_hotspots (clustering.py lines 136-335).  `dbEvents` is the
result of the active-event bounding-box query, in query order; `freshId`
is the uuid counter for newly created events. -/
def clusterHotspots (dist : DistFn) (cfg : ClusteringConfig)
    (dbEvents : List DBFireEvent) (freshId : ℤ)
    (hotspots : List EnrichedHotspot) : List FireEvent × List DBFireEvent :=
  if hotspots.isEmpty then ([], [])
  else buildEvents cfg freshId (finalClusters dist cfg dbEvents hotspots)

/-- _fetch_active_events_for_clustering (clustering.py lines 338-380):
active events whose centroid lies in the padded bounding box of the
batch. -/
def fetchActiveEventsForClustering (cfg : ClusteringConfig)
    (hotspots : List EnrichedHotspot) (store : List DBFireEvent) :
    List DBFireEvent :=
  if hotspots.isEmpty then []
  else
    let padding := cfg.spatialRadiusM / 111000 * (3 / 2)
    let lats := hotspots.map (·.hotspot.latitude)
    let lons := hotspots.map (·.hotspot.longitude)
    let minLat := listMinQ lats - padding
    let maxLat := listMaxQ lats + padding
    let minLon := listMinQ lons - padding
    let maxLon := listMaxQ lons + padding
    store.filter fun ev =>
      ev.isActive
      && decide (minLat ≤ ev.centerLat) && decide (ev.centerLat ≤ maxLat)
      && decide (minLon ≤ ev.centerLon) && decide (ev.centerLon ≤ maxLon)

/-!  ## Intent classifier (processing/classifier.py)  -/

/-- IntentWeightsConfig (config.py): the configured max weight of each
signal. -/
structure IntentWeights where
  lightningAbsence : ℤ
  roadProximity : ℤ
  nighttimeIgnition : ℤ
  historicalRepeat : ℤ
  multiPointIgnition : ℤ
  dryConditions : ℤ
deriving DecidableEq, Repr

/-- RoadDistanceConfig (config.py): road-proximity tier bounds in
meters. -/
structure RoadDistanceCfg where
  veryClose : ℚ
  close : ℚ
  near : ℚ
  moderate : ℚ
deriving DecidableEq, Repr

/-- NightHoursConfig (config.py): [start, end) hour pairs for the peak
and the two shoulder windows, local time. -/
structure NightHoursCfg where
  peak : ℤ × ℤ
  shoulder : ℤ × ℤ
  shoulderEvening : ℤ × ℤ
deriving DecidableEq, Repr

/-- IntentScoringConfig (config.py), the part the classifier reads. -/
structure IntentScoringCfg where
  weights : IntentWeights
  roadDistanceM : RoadDistanceCfg
  nightHoursLocal : NightHoursCfg
deriving DecidableEq, Repr

/-- IntentClassifier._get_weather (classifier.py lines 389-401): weather
context of the first enriched hotspot, `none` for an empty member list. -/
def getWeather (event : FireEvent) : Option WeatherContext :=
  match event.hotspots with
  | [] => none
  | h :: _ => h.weather

/-- IntentClassifier._get_road (classifier.py lines 403-415). -/
def getRoad (event : FireEvent) : Option RoadContext :=
  match event.hotspots with
  | [] => none
  | h :: _ => h.road

/-- IntentClassifier._get_local_hour (classifier.py lines 417-443):
earliest member acquisition time converted to Argentina local hour
(UTC-3); defaults to 12 (noon) when the event has no hotspots. -/
def getLocalHour (event : FireEvent) : ℤ :=
  match event.hotspots with
  | [] => 12
  | _ :: _ =>
    let earliest := listMinZ (event.hotspots.map (·.hotspot.acqTime))
    let utcHour := earliest / 60
    (utcHour - 3) % 24

/-- IntentClassifier._in_hour_range (classifier.py lines 445-461):
inclusive start, exclusive end, wrapping past midnight when
start > end. -/
def inHourRange (hour startH endH : ℤ) : Bool :=
  if startH ≤ endH then decide (startH ≤ hour) && decide (hour < endH)
  else decide (hour ≥ startH) || decide (hour < endH)

/-- IntentClassifier._score_lightning (classifier.py lines 111-135). -/
def scoreLightning (w : IntentWeights) :
    Option WeatherContext → ℤ × Bool
  | none => (0, false)
  | some weather =>
    if weather.hasThunderstorm then (0, true)
    else if weather.cape ≥ 1000 then (0, true)
    else if weather.cape ≥ 500 then
      (pyRound ((w.lightningAbsence : ℚ) * (6 / 10)), true)
    else (w.lightningAbsence, true)

/-- IntentClassifier._score_road_proximity (classifier.py lines
137-166). -/
def scoreRoadProximity (w : IntentWeights) (rd : RoadDistanceCfg) :
    Option RoadContext → ℤ × Bool
  | none => (0, false)
  | some road =>
    if road.nearestDistanceM < rd.veryClose then (w.roadProximity, true)
    else if road.nearestDistanceM < rd.close then
      (pyRound ((w.roadProximity : ℚ) * (75 / 100)), true)
    else if road.nearestDistanceM < rd.near then
      (pyRound ((w.roadProximity : ℚ) * (50 / 100)), true)
    else if road.nearestDistanceM < rd.moderate then
      (pyRound ((w.roadProximity : ℚ) * (25 / 100)), true)
    else (0, true)

/-- IntentClassifier._score_nighttime (classifier.py lines 168-206). -/
def scoreNighttime (w : IntentWeights) (nh : NightHoursCfg)
    (event : FireEvent) : ℤ × Bool :=
  let localHour := getLocalHour event
  if inHourRange localHour nh.peak.1 nh.peak.2 then
    (w.nighttimeIgnition, true)
  else if inHourRange localHour nh.shoulder.1 nh.shoulder.2 then
    (pyRound ((w.nighttimeIgnition : ℚ) * (5 / 10)), true)
  else if inHourRange localHour nh.shoulderEvening.1 nh.shoulderEvening.2 then
    (pyRound ((w.nighttimeIgnition : ℚ) * (5 / 10)), true)
  else (0, true)

/-- IntentClassifier._score_historical (classifier.py lines 208-242). -/
def scoreHistorical (w : IntentWeights) (historyCount : ℤ)
    (monthsSinceLast : Option ℤ) : ℤ × Bool :=
  match monthsSinceLast with
  | none => (0, true)
  | some months =>
    if historyCount = 0 then (0, true)
    else if months < 12 then (w.historicalRepeat, true)
    else if months < 24 then
      (pyRound ((w.historicalRepeat : ℚ) * (67 / 100)), true)
    else if months < 36 then
      (pyRound ((w.historicalRepeat : ℚ) * (33 / 100)), true)
    else (0, true)

/-- IntentClassifier._score_multi_point (classifier.py lines 244-266). -/
def scoreMultiPoint (w : IntentWeights) (nearbyEventCount : ℤ) : ℤ × Bool :=
  if nearbyEventCount ≥ 2 then (w.multiPointIgnition, true)
  else if nearbyEventCount = 1 then
    (pyRound ((w.multiPointIgnition : ℚ) * (5 / 10)), true)
  else (0, true)

/-- IntentClassifier._score_dry_conditions (classifier.py lines
268-291). -/
def scoreDryConditions (w : IntentWeights) :
    Option WeatherContext → ℤ × Bool
  | none => (0, false)
  | some weather =>
    if weather.humidityPct < 25 ∧ weather.precipitationMm72h = 0 then
      (w.dryConditions, true)
    else if weather.humidityPct < 35 ∧ weather.precipitationMm72h < 2 then
      (pyRound ((w.dryConditions : ℚ) * (5 / 10)), true)
    else (0, true)

/-- Subtract `excess` from the first occurrence of `v` in the list:
`renormalized[renormalized.index(max(renormalized))] -= total - 100`
(classifier.py lines 369-372). -/
def subAtFirst (v excess : ℤ) : List ℤ → List ℤ
  | [] => []
  | h :: t => if h = v then (h - excess) :: t else h :: subAtFirst v excess t

/-- Build an IntentBreakdown from the six-element score list of
`_renormalize` (classifier.py lines 328-337, 346-355, 374-383). -/
def mkBreakdown (scores : List ℤ) (activeSignals totalSignals : ℕ) :
    IntentBreakdown :=
  { lightningScore := scores.getD 0 0
    roadScore := scores.getD 1 0
    nightScore := scores.getD 2 0
    historyScore := scores.getD 3 0
    multiPointScore := scores.getD 4 0
    dryConditionsScore := scores.getD 5 0
    activeSignals := activeSignals
    totalSignals := totalSignals }

/-- IntentClassifier._renormalize (classifier.py lines 297-383).  Each
signal is a (raw score, max weight, is available) triple, in order:
lightning, road, night, history, multi-point, dry. -/
def renormalize (signals : List (ℤ × ℤ × Bool)) : IntentBreakdown :=
  let totalSignals := signals.length
  let activeSignals := (signals.filter (fun s => s.2.2)).length
  let rawScores := signals.map (·.1)
  let availableMax : ℤ := ((signals.filter (fun s => s.2.2)).map (·.2.1)).sum
  if availableMax = 0 then
    mkBreakdown [0, 0, 0, 0, 0, 0] 0 totalSignals
  else if availableMax = 100 then
    mkBreakdown rawScores activeSignals totalSignals
  else
    let scale : ℚ := 100 / (availableMax : ℚ)
    let renormalized := signals.map fun s =>
      if s.2.2 then pyRound ((s.1 : ℚ) * scale) else 0
    let total := renormalized.sum
    let capped :=
      if total > 100 then
        subAtFirst (listMaxZ renormalized) (total - 100) renormalized
      else renormalized
    mkBreakdown capped activeSignals totalSignals

/-- IntentClassifier.classify (classifier.py lines 50-105). -/
def classify (cfg : IntentScoringCfg) (event : FireEvent)
    (historyCount : ℤ) (monthsSinceLast : Option ℤ)
    (nearbyEventCount : ℤ) : IntentBreakdown :=
  let weather := getWeather event
  let road := getRoad event
  let lightning := scoreLightning cfg.weights weather
  let roadScore := scoreRoadProximity cfg.weights cfg.roadDistanceM road
  let night := scoreNighttime cfg.weights cfg.nightHoursLocal event
  let history := scoreHistorical cfg.weights historyCount monthsSinceLast
  let multi := scoreMultiPoint cfg.weights nearbyEventCount
  let dry := scoreDryConditions cfg.weights weather
  renormalize
    [ (lightning.1, cfg.weights.lightningAbsence, lightning.2),
      (roadScore.1, cfg.weights.roadProximity, roadScore.2),
      (night.1, cfg.weights.nighttimeIgnition, night.2),
      (history.1, cfg.weights.historicalRepeat, history.2),
      (multi.1, cfg.weights.multiPointIgnition, multi.2),
      (dry.1, cfg.weights.dryConditions, dry.2) ]

/-!  ## Pipeline orchestrator (core/pipeline.py)

`run_cycle` calls external collaborators (FIRMS fetch, the DB session,
the enrichment clients, the alert dispatcher); each stage's outcome is
modelled as an oracle input in `CycleEnv`: `.ok` with the value the stage
produced, `.error` with the exception text the stage raised.  The run
record's identity and wall-clock fields (`id`, `started_at`,
`completed_at`, `duration_ms`) are omitted: no claim concerns them.  -/

/-- PipelineStatus (core/types.py).  The Python `PARTIAL` member is named
`partialStatus` because `partial` is a Lean keyword. -/
inductive PipelineStatus where
  | success
  | partialStatus
  | failed
deriving DecidableEq, Repr

/-- PipelineRunRecord (core/types.py), without identity and timing
fields. -/
structure PipelineRunRecord where
  status : PipelineStatus := .success
  hotspotsFetched : ℕ := 0
  newHotspots : ℕ := 0
  eventsCreated : ℕ := 0
  eventsUpdated : ℕ := 0
  alertsSent : ℕ := 0
  errors : List String := []
deriving DecidableEq, Repr

/-- Stage outcomes of one cycle (see the section comment):
`dedup` is the whole stage-2 block (deduplicate + store + commit),
`enrich` is `_enrich_batch`, `cluster` is the stage-4 block,
`classifyPersist` is the stage-5 block (the classifier itself is total;
only the DB persist can raise), `dispatcher` is `none` when no alert
dispatcher is configured and otherwise carries the dispatch outcome
(total alert count = sum of the per-channel counts). -/
structure CycleEnv where
  ingest : Except String (List RawHotspot)
  dedup : Except String (List RawHotspot)
  enrich : Except String (List EnrichedHotspot)
  cluster : Except String (List FireEvent)
  classifyPersist : Except String Unit
  dispatcher : Option (Except String ℕ)

/-- The new-versus-updated event count of stage 4 (pipeline.py lines
223-229): an event counts as new when every member hotspot is an element
of the enriched batch (Python `h in enriched` is value equality on the
dataclass). -/
def newEventsCount (enriched : List EnrichedHotspot)
    (events : List FireEvent) : ℕ :=
  (events.filter fun e =>
    e.hotspots.length
      == (e.hotspots.filter (fun h => decide (h ∈ enriched))).length).length

/-- Pipeline.run_cycle (pipeline.py lines 96-349): the six-stage cycle
with per-stage error isolation, early exits for ingest failure and for
dedup failure / zero new hotspots, and the final status derivation. -/
def runCycle (env : CycleEnv) : PipelineRunRecord :=
  match env.ingest with
  | .error msg =>
    { status := .failed, errors := ["Stage 1 INGEST failed: " ++ msg] }
  | .ok rawHotspots =>
    match env.dedup with
    | .error msg =>
      { hotspotsFetched := rawHotspots.length
        status := .failed
        errors := ["Stage 2 DEDUP failed: " ++ msg] }
    | .ok newHotspots =>
      if newHotspots.length = 0 then
        { hotspotsFetched := rawHotspots.length
          newHotspots := 0
          status := .success
          errors := [] }
      else
        let stage3 :=
          match env.enrich with
          | .ok enriched =>
            let weatherOk :=
              (enriched.filter (fun e : EnrichedHotspot => e.weather.isSome)).length
            let roadOk :=
              (enriched.filter (fun e : EnrichedHotspot => e.road.isSome)).length
            if weatherOk < enriched.length ∨ roadOk < enriched.length then
              (enriched,
               ["Stage 3 ENRICH partial: "
                  ++ toString (enriched.length - weatherOk)
                  ++ " weather failures, "
                  ++ toString (enriched.length - roadOk)
                  ++ " road failures"],
               ["enrich_partial"])
            else (enriched, [], [])
          | .error msg =>
            (newHotspots.map (fun hs => { hotspot := hs }),
             ["Stage 3 ENRICH failed: " ++ msg], ["enrich"])
        let enriched := stage3.1
        let stage4 :=
          match env.cluster with
          | .ok events =>
            let newEvents := newEventsCount enriched events
            (events, newEvents, events.length - newEvents,
             ([] : List String), ([] : List String))
          | .error msg =>
            ([], 0, 0, ["Stage 4 CLUSTER failed: " ++ msg], ["cluster"])
        let events := stage4.1
        let failuresSoFar := stage3.2.2 ++ stage4.2.2.2.2
        let stage5 :=
          if ¬ events.isEmpty ∧ "cluster" ∉ failuresSoFar then
            match env.classifyPersist with
            | .ok _ => (([] : List String), ([] : List String))
            | .error msg =>
              (["Stage 5 CLASSIFY failed: " ++ msg], ["classify"])
          else ([], [])
        let stage6 :=
          match env.dispatcher with
          | some dispatchOutcome =>
            if ¬ events.isEmpty ∧ "cluster" ∉ failuresSoFar then
              match dispatchOutcome with
              | .ok totalAlerts => (totalAlerts, ([] : List String), ([] : List String))
              | .error msg =>
                (0, ["Stage 6 ALERT failed: " ++ msg], ["alert"])
            else (0, [], [])
          | none => (0, [], [])
        let stageFailures := failuresSoFar ++ stage5.2 ++ stage6.2.2
        let errors := stage3.2.1 ++ stage4.2.2.2.1 ++ stage5.1 ++ stage6.2.1
        let status :=
          if stageFailures.any (fun s => s == "ingest" || s == "dedup") then
            PipelineStatus.failed
          else if ¬ stageFailures.isEmpty then PipelineStatus.partialStatus
          else PipelineStatus.success
        { hotspotsFetched := rawHotspots.length
          newHotspots := newHotspots.length
          eventsCreated := stage4.2.1
          eventsUpdated := stage4.2.2.1
          alertsSent := stage6.1
          status := status
          errors := errors }

/-!  ## Concrete sample data for witnesses

Concrete configurations and inputs in the spirit of the test fixtures
(tests/conftest.py, tests/test_classifier.py) and the spec's scenarios:
weights 25/20/20/15/10/10, severity table low [1,2] / medium [3,5] /
high [6,9] / critical 10+, a VIIRS hotspot near Epuyen.  `flatDist` is a
simple computable metric standing in for the haversine distance when a
witness needs a concrete distance function. -/

/-- A concrete distance function for witnesses (an equirectangular-style
taxicab metric, scaled to meters per degree). -/
def flatDist : DistFn := fun p q =>
  (|p.1 - q.1| + |p.2 - q.2|) * 111000

/-- Sample intent-scoring configuration. -/
def sampleIntentCfg : IntentScoringCfg where
  weights :=
    { lightningAbsence := 25
      roadProximity := 20
      nighttimeIgnition := 20
      historicalRepeat := 15
      multiPointIgnition := 10
      dryConditions := 10 }
  roadDistanceM :=
    { veryClose := 100
      close := 500
      near := 1000
      moderate := 5000 }
  nightHoursLocal :=
    { peak := (22, 5)
      shoulder := (5, 7)
      shoulderEvening := (20, 22) }

/-- Sample clustering configuration. -/
def sampleClusterCfg : ClusteringConfig where
  spatialRadiusM := 2000
  temporalWindowHours := 24
  severity :=
    { mediumLo := 3
      mediumHi := 5
      highLo := 6
      highHi := 9
      criticalLo := 10 }
  criticalFrpThresholdMw := 500

/-- Sample dedup configuration. -/
def sampleDedupCfg : DedupConfig where
  spatialToleranceM := 500
  temporalToleranceMinutes := 30

/-- A sample VIIRS hotspot (Epuyen area, 03:30 UTC). -/
def sampleHotspot : RawHotspot where
  source := "VIIRS_SNPP_NRT"
  latitude := -42
  longitude := -71
  brightness := 345
  brightness2 := 298
  frp := 28
  confidence := "high"
  acqDate := 20500
  acqTime := 210
  satellite := "N"
  daynight := "N"

/-- The sample hotspot fully enriched. -/
def sampleEnriched : EnrichedHotspot where
  hotspot := sampleHotspot
  weather := some
    { cape := 150
      convectiveInhibition := 25
      weatherCode := 0
      temperatureC := 25
      windSpeedKmh := 10
      humidityPct := 22
      precipitationMm6h := 0
      precipitationMm72h := 0
      hasThunderstorm := false }
  road := some
    { nearestDistanceM := 50
      nearestRoadType := "secondary"
      nearestRoadRef := none }

/-- A sample fire event holding the enriched sample hotspot. -/
def sampleEvent : FireEvent where
  id := .fresh 0
  centerLat := -42
  centerLon := -71
  hotspots := [sampleEnriched]
  severity := .medium
  maxFrp := 28
  firstDetected := 0
  lastUpdated := 0
  isActive := true

/-- A sample fire event with an empty member list (for the degenerate
classifier input of C10). -/
def sampleEmptyEvent : FireEvent where
  id := .fresh 1
  centerLat := -42
  centerLon := -71
  hotspots := []
  severity := .low
  maxFrp := 0
  firstDetected := 0
  lastUpdated := 0
  isActive := true

/-- A sample pre-existing store event centred on the sample hotspot. -/
def sampleDbEvent : DBFireEvent where
  id := 77
  centerLat := -42
  centerLon := -71
  severity := .medium
  hotspotCount := 4
  maxFrp := 40
  firstDetectedAt := -500
  lastUpdatedAt := -100
  isActive := true

/-- A stored hotspot 0.01 degrees of latitude south of the sample
hotspot (about 1.1 km under `flatDist`), same source and date. -/
def sampleFarStored : StoredHotspot :=
  toStored 5 { sampleHotspot with latitude := -4201/100, acqTime := 212 }

/-- A hotspot at 50 degrees south, the latitude extreme of the
full_patagonia monitoring box. -/
def polarHotspot : RawHotspot where
  source := "VIIRS_SNPP_NRT"
  latitude := -50
  longitude := -71
  brightness := 345
  brightness2 := 298
  frp := 28
  confidence := "high"
  acqDate := 20500
  acqTime := 210
  satellite := "N"
  daynight := "N"

/-- A stored hotspot 0.00699 degrees of longitude east of
`polarHotspot`, same source, date and time.  At 50 degrees south one
degree of longitude spans about 71474 m, so this offset is about
499.6 m of haversine distance -- inside the 500 m tolerance -- yet it
exceeds the bounding-box padding of 500 / 111000 * 1.5 = 0.006757
degrees. -/
def polarStored : StoredHotspot where
  id := 3
  source := "VIIRS_SNPP_NRT"
  latitude := -50
  longitude := -71 + 699/100000
  brightness := 345
  brightness2 := 298
  frp := 28
  confidence := "high"
  acqDate := 20500
  acqTime := 210
  daynight := "N"
  satellite := "N"

/-- The first-order expansion of the haversine distance at 50 degrees
south: 111195 m per degree along a meridian (pi * 6371000 / 180) and
71473 m per degree along the parallel (the meridian figure times
cos 50).  On the `polarHotspot` / `polarStored` pair it agrees with the
exact haversine distance to within a few centimeters. -/
def patagoniaDist : DistFn := fun p q =>
  |p.1 - q.1| * 111195 + |p.2 - q.2| * 71473

/-- A sample cycle environment: every stage succeeds, the cluster stage
returns the clustering of the enriched sample batch, no dispatcher. -/
def sampleCycleEnv : CycleEnv where
  ingest := .ok [sampleHotspot]
  dedup := .ok [sampleHotspot]
  enrich := .ok [sampleEnriched]
  cluster := .ok (clusterHotspots flatDist sampleClusterCfg [sampleDbEvent]
    0 [sampleEnriched]).1
  classifyPersist := .ok ()
  dispatcher := none

/-!  ## Helper lemmas  -/

/-- pyRound of a value in [n, n + 1/2) is n. -/
theorem pyRound_eq_down (q : ℚ) (n : ℤ) (h1 : (n : ℚ) ≤ q)
    (h2 : q < (n : ℚ) + 1/2) : pyRound q = n := by
  have hf : ⌊q⌋ = n := by
    rw [Int.floor_eq_iff]
    exact ⟨by exact_mod_cast h1, by linarith⟩
  unfold pyRound
  rw [hf, if_pos (by linarith)]

/-- pyRound of a value in (n + 1/2, n + 1) is n + 1. -/
theorem pyRound_eq_up (q : ℚ) (n : ℤ) (h1 : (n : ℚ) + 1/2 < q)
    (h2 : q < (n : ℚ) + 1) : pyRound q = n + 1 := by
  have hf : ⌊q⌋ = n := by
    rw [Int.floor_eq_iff]
    exact ⟨by linarith, by exact_mod_cast h2⟩
  unfold pyRound
  rw [hf, if_neg (by linarith), if_pos (by linarith)]

/-- pyRound never exceeds an integer upper bound of its argument. -/
theorem pyRound_le (q : ℚ) (n : ℤ) (h : q ≤ (n : ℚ)) : pyRound q ≤ n := by
  have hfl : ⌊q⌋ ≤ n := by
    have h2 := Int.floor_le_floor h
    simpa using h2
  unfold pyRound
  split_ifs with hlt hgt hev
  · exact hfl
  · -- the fractional part exceeds 1/2, so q is strictly above its floor
    have hne : (⌊q⌋ : ℚ) < q := by linarith
    have hlt2 : (⌊q⌋ : ℚ) < (n : ℚ) := lt_of_lt_of_le hne h
    have hzn : ⌊q⌋ < n := by exact_mod_cast hlt2
    omega
  · exact hfl
  · -- the fractional part equals 1/2 exactly, so again floor < q
    have hne : (⌊q⌋ : ℚ) < q := by linarith
    have hlt2 : (⌊q⌋ : ℚ) < (n : ℚ) := lt_of_lt_of_le hne h
    have hzn : ⌊q⌋ < n := by exact_mod_cast hlt2
    omega

/-- pyRound of a nonnegative value is nonnegative. -/
theorem pyRound_nonneg (q : ℚ) (h : 0 ≤ q) : 0 ≤ pyRound q := by
  have hfl : (0 : ℤ) ≤ ⌊q⌋ := Int.floor_nonneg.mpr h
  unfold pyRound
  split_ifs <;> omega

/-- One-step monotonicity of `calculate_severity` in the hotspot count,
under the configured four-tier table being gap-free: the high range
starts no later than one past the medium range, and the critical
threshold is no later than one past the high range. -/
theorem calculateSeverity_step (cfg : ClusteringConfig) (n : ℤ) (frp : ℚ)
    (hmh : cfg.severity.highLo ≤ cfg.severity.mediumHi + 1)
    (hhc : cfg.severity.criticalLo ≤ cfg.severity.highHi + 1) :
    sevRank (calculateSeverity cfg n frp)
      ≤ sevRank (calculateSeverity cfg (n + 1) frp) := by
  unfold calculateSeverity
  split_ifs <;> simp_all [sevRank] <;> omega

/-- Monotonicity of `calculate_severity` over any count increase. -/
theorem calculateSeverity_mono (cfg : ClusteringConfig) (n : ℤ) (k : ℕ)
    (frp : ℚ)
    (hmh : cfg.severity.highLo ≤ cfg.severity.mediumHi + 1)
    (hhc : cfg.severity.criticalLo ≤ cfg.severity.highHi + 1) :
    sevRank (calculateSeverity cfg n frp)
      ≤ sevRank (calculateSeverity cfg (n + k) frp) := by
  induction k with
  | zero => simp
  | succ m ih =>
    refine le_trans ih ?_
    have := calculateSeverity_step cfg (n + m) frp hmh hhc
    have harith : n + (m : ℤ) + 1 = n + ((m : ℕ) + 1 : ℕ) := by push_cast; ring
    rw [harith] at this
    exact this

/-- C6: `calculate_severity` is monotone in hotspot count -- increasing
the count at fixed FRP never strictly lowers the severity tier (under the
configured gap-free four-tier count table) -- and any FRP strictly above
the configured critical threshold yields CRITICAL regardless of count. -/
theorem claim6_severity_monotone (cfg : ClusteringConfig)
    (hmh : cfg.severity.highLo ≤ cfg.severity.mediumHi + 1)
    (hhc : cfg.severity.criticalLo ≤ cfg.severity.highHi + 1) :
    (∀ (n : ℤ) (k : ℕ) (frp : ℚ),
      sevRank (calculateSeverity cfg n frp)
        ≤ sevRank (calculateSeverity cfg (n + k) frp)) ∧
    (∀ (n : ℤ) (frp : ℚ), frp > cfg.criticalFrpThresholdMw →
      calculateSeverity cfg n frp = .critical) := by
  constructor
  · intro n k frp
    exact calculateSeverity_mono cfg n k frp hmh hhc
  · intro n frp hfrp
    unfold calculateSeverity
    rw [if_pos hfrp]

/-- Witness for C6 at the concrete table low [1,2], medium [3,5],
high [6,9], critical 10+, critical FRP threshold 500 MW. -/
theorem claim6_severity_monotone_witness :
    (∀ (n : ℤ) (k : ℕ) (frp : ℚ),
      sevRank (calculateSeverity
        { spatialRadiusM := 2000, temporalWindowHours := 24,
          severity := { mediumLo := 3, mediumHi := 5, highLo := 6,
                        highHi := 9, criticalLo := 10 },
          criticalFrpThresholdMw := 500 } n frp)
        ≤ sevRank (calculateSeverity
        { spatialRadiusM := 2000, temporalWindowHours := 24,
          severity := { mediumLo := 3, mediumHi := 5, highLo := 6,
                        highHi := 9, criticalLo := 10 },
          criticalFrpThresholdMw := 500 } (n + k) frp)) ∧
    (∀ (n : ℤ) (frp : ℚ), frp > 500 →
      calculateSeverity
        { spatialRadiusM := 2000, temporalWindowHours := 24,
          severity := { mediumLo := 3, mediumHi := 5, highLo := 6,
                        highHi := 9, criticalLo := 10 },
          criticalFrpThresholdMw := 500 } n frp = .critical) :=
  claim6_severity_monotone _ (by decide) (by decide)

/-- subAtFirst preserves length. -/
theorem subAtFirst_length (v e : ℤ) (l : List ℤ) :
    (subAtFirst v e l).length = l.length := by
  induction l with
  | nil => rfl
  | cons h t ih =>
    unfold subAtFirst
    split_ifs <;> simp [ih]

/-- subAtFirst lowers the list sum by exactly the excess when the target
value occurs in the list. -/
theorem subAtFirst_sum (v e : ℤ) (l : List ℤ) (hv : v ∈ l) :
    (subAtFirst v e l).sum = l.sum - e := by
  induction l with
  | nil => cases hv
  | cons h t ih =>
    unfold subAtFirst
    by_cases hh : h = v
    · rw [if_pos hh]
      simp
      ring
    · rw [if_neg hh]
      have hvt : v ∈ t := by
        cases hv with
        | head => exact absurd rfl hh
        | tail _ h2 => exact h2
      simp [ih hvt]
      ring

/-- The Python max of a nonempty list is one of its elements. -/
theorem listMaxZ_mem (l : List ℤ) (hl : l ≠ []) : listMaxZ l ∈ l := by
  match l, hl with
  | h :: t, _ =>
    suffices hgen : ∀ (t : List ℤ) (acc : ℤ), t.foldl max acc ∈ acc :: t by
      exact hgen t h
    intro t
    induction t with
    | nil => intro acc; simp
    | cons x xs ih =>
      intro acc
      rw [List.foldl_cons]
      rcases max_choice acc x with hm | hm <;> rw [hm]
      · rcases List.mem_cons.mp (ih acc) with h1 | h1 <;> simp [h1]
      · rcases List.mem_cons.mp (ih x) with h1 | h1 <;> simp [h1]

/-- IntentBreakdown.total of `mkBreakdown` on a six-element score list is
the list sum. -/
theorem mkBreakdown_total (l : List ℤ) (a t : ℕ) (hl : l.length = 6) :
    (mkBreakdown l a t).total = l.sum := by
  match l, hl with
  | [s1, s2, s3, s4, s5, s6], _ =>
    simp [mkBreakdown, IntentBreakdown.total]
    ring

/-- Raw-score sum bound: when every available signal's raw score is at
most its weight and every unavailable signal's raw score is zero, the
total raw score is at most the available weight sum. -/
theorem sum_raw_le_availableMax (signals : List (ℤ × ℤ × Bool))
    (hbound : ∀ s ∈ signals, s.2.2 = true → s.1 ≤ s.2.1)
    (hunavail : ∀ s ∈ signals, s.2.2 = false → s.1 = 0) :
    (signals.map (·.1)).sum
      ≤ ((signals.filter (fun s => s.2.2)).map (fun s => s.2.1)).sum := by
  induction signals with
  | nil => simp
  | cons s rest ih =>
    have hrest := ih (fun x hx => hbound x (List.mem_cons_of_mem s hx))
      (fun x hx => hunavail x (List.mem_cons_of_mem s hx))
    by_cases hav : s.2.2 = true
    · have h1 := hbound s (List.mem_cons_self s rest) hav
      simp [hav]
      calc s.1 + (rest.map (·.1)).sum
          ≤ s.2.1 + ((rest.filter (fun s => s.2.2)).map (fun s => s.2.1)).sum := by
            exact add_le_add h1 hrest
        _ = _ := by ring
    · have hf : s.2.2 = false := by
        cases hb : s.2.2
        · rfl
        · exact absurd hb hav
      have h0 := hunavail s (List.mem_cons_self s rest) hf
      simp [hf, h0]
      exact hrest

/-- The renormalized total never exceeds 100 for a six-signal list whose
available raw scores are bounded by their weights and whose unavailable
raw scores are zero. -/
theorem renormalize_total_le (signals : List (ℤ × ℤ × Bool))
    (hlen : signals.length = 6)
    (hbound : ∀ s ∈ signals, s.2.2 = true → s.1 ≤ s.2.1)
    (hunavail : ∀ s ∈ signals, s.2.2 = false → s.1 = 0) :
    (renormalize signals).total ≤ 100 := by
  have hne : signals ≠ [] := by
    intro h
    rw [h] at hlen
    simp at hlen
  unfold renormalize
  dsimp only
  split_ifs with h0 h100 hcap
  · simp [mkBreakdown, IntentBreakdown.total]
  · rw [mkBreakdown_total _ _ _ (by simp [hlen])]
    calc (signals.map (·.1)).sum
        ≤ ((signals.filter (fun s => s.2.2)).map (fun s => s.2.1)).sum :=
          sum_raw_le_availableMax signals hbound hunavail
      _ = 100 := h100
  · rw [mkBreakdown_total _ _ _ (by simp [subAtFirst_length, hlen])]
    rw [subAtFirst_sum _ _ _ (listMaxZ_mem _
      (by simpa using hne))]
    omega
  · rw [mkBreakdown_total _ _ _ (by simp [hlen])]
    omega

/-- pyRound of a nonnegative integer scaled by a factor in [0, 1] stays
at most the integer. -/
theorem pyRound_scale_le (w : ℤ) (c : ℚ) (hw : 0 ≤ w) (hc0 : 0 ≤ c)
    (hc1 : c ≤ 1) : pyRound ((w : ℚ) * c) ≤ w := by
  apply pyRound_le
  have hwq : (0 : ℚ) ≤ (w : ℚ) := by exact_mod_cast hw
  calc (w : ℚ) * c ≤ (w : ℚ) * 1 := by
        exact mul_le_mul_of_nonneg_left hc1 hwq
    _ = (w : ℚ) := mul_one _

/-- The lightning signal's raw score is bounded by its weight. -/
theorem scoreLightning_le (w : IntentWeights) (ow : Option WeatherContext)
    (hw : 0 ≤ w.lightningAbsence) :
    (scoreLightning w ow).1 ≤ w.lightningAbsence := by
  cases ow with
  | none => simpa [scoreLightning] using hw
  | some weather =>
    unfold scoreLightning
    dsimp only
    split_ifs <;> simp [hw]
    exact pyRound_scale_le _ _ hw (by norm_num) (by norm_num)

/-- An unavailable lightning signal scores zero. -/
theorem scoreLightning_unavail (w : IntentWeights)
    (ow : Option WeatherContext) (h : (scoreLightning w ow).2 = false) :
    (scoreLightning w ow).1 = 0 := by
  cases ow with
  | none => rfl
  | some weather =>
    unfold scoreLightning at h ⊢
    dsimp only at h ⊢
    split_ifs at h ⊢ <;> simp_all

/-- The road-proximity signal's raw score is bounded by its weight. -/
theorem scoreRoadProximity_le (w : IntentWeights) (rd : RoadDistanceCfg)
    (orc : Option RoadContext) (hw : 0 ≤ w.roadProximity) :
    (scoreRoadProximity w rd orc).1 ≤ w.roadProximity := by
  cases orc with
  | none => simpa [scoreRoadProximity] using hw
  | some road =>
    unfold scoreRoadProximity
    dsimp only
    split_ifs <;> simp [hw] <;>
      exact pyRound_scale_le _ _ hw (by norm_num) (by norm_num)

/-- An unavailable road-proximity signal scores zero. -/
theorem scoreRoadProximity_unavail (w : IntentWeights)
    (rd : RoadDistanceCfg) (orc : Option RoadContext)
    (h : (scoreRoadProximity w rd orc).2 = false) :
    (scoreRoadProximity w rd orc).1 = 0 := by
  cases orc with
  | none => rfl
  | some road =>
    unfold scoreRoadProximity at h ⊢
    dsimp only at h ⊢
    split_ifs at h ⊢ <;> simp_all

/-- The nighttime signal's raw score is bounded by its weight. -/
theorem scoreNighttime_le (w : IntentWeights) (nh : NightHoursCfg)
    (event : FireEvent) (hw : 0 ≤ w.nighttimeIgnition) :
    (scoreNighttime w nh event).1 ≤ w.nighttimeIgnition := by
  unfold scoreNighttime
  dsimp only
  split_ifs <;> simp [hw] <;>
    exact pyRound_scale_le _ _ hw (by norm_num) (by norm_num)

/-- The nighttime signal is always available. -/
theorem scoreNighttime_avail (w : IntentWeights) (nh : NightHoursCfg)
    (event : FireEvent) : (scoreNighttime w nh event).2 = true := by
  unfold scoreNighttime
  dsimp only
  split_ifs <;> rfl

/-- The historical-repeat signal's raw score is bounded by its weight. -/
theorem scoreHistorical_le (w : IntentWeights) (hc : ℤ) (om : Option ℤ)
    (hw : 0 ≤ w.historicalRepeat) :
    (scoreHistorical w hc om).1 ≤ w.historicalRepeat := by
  cases om with
  | none => simpa [scoreHistorical] using hw
  | some months =>
    unfold scoreHistorical
    dsimp only
    split_ifs <;> simp [hw] <;>
      exact pyRound_scale_le _ _ hw (by norm_num) (by norm_num)

/-- The historical-repeat signal is always available. -/
theorem scoreHistorical_avail (w : IntentWeights) (hc : ℤ)
    (om : Option ℤ) : (scoreHistorical w hc om).2 = true := by
  cases om with
  | none => rfl
  | some months =>
    unfold scoreHistorical
    dsimp only
    split_ifs <;> rfl

/-- The multi-point signal's raw score is bounded by its weight. -/
theorem scoreMultiPoint_le (w : IntentWeights) (n : ℤ)
    (hw : 0 ≤ w.multiPointIgnition) :
    (scoreMultiPoint w n).1 ≤ w.multiPointIgnition := by
  unfold scoreMultiPoint
  split_ifs <;> simp [hw] <;>
    exact pyRound_scale_le _ _ hw (by norm_num) (by norm_num)

/-- The multi-point signal is always available. -/
theorem scoreMultiPoint_avail (w : IntentWeights) (n : ℤ) :
    (scoreMultiPoint w n).2 = true := by
  unfold scoreMultiPoint
  split_ifs <;> rfl

/-- The dry-conditions signal's raw score is bounded by its weight. -/
theorem scoreDryConditions_le (w : IntentWeights)
    (ow : Option WeatherContext) (hw : 0 ≤ w.dryConditions) :
    (scoreDryConditions w ow).1 ≤ w.dryConditions := by
  cases ow with
  | none => simpa [scoreDryConditions] using hw
  | some weather =>
    unfold scoreDryConditions
    dsimp only
    split_ifs <;> simp [hw] <;>
      exact pyRound_scale_le _ _ hw (by norm_num) (by norm_num)

/-- An unavailable dry-conditions signal scores zero. -/
theorem scoreDryConditions_unavail (w : IntentWeights)
    (ow : Option WeatherContext)
    (h : (scoreDryConditions w ow).2 = false) :
    (scoreDryConditions w ow).1 = 0 := by
  cases ow with
  | none => rfl
  | some weather =>
    unfold scoreDryConditions at h ⊢
    dsimp only at h ⊢
    split_ifs at h ⊢ <;> simp_all

/-- All signals unavailable: `_renormalize` returns the all-zero
breakdown with zero active signals. -/
theorem renormalize_all_unavailable (signals : List (ℤ × ℤ × Bool))
    (h : ∀ s ∈ signals, s.2.2 = false) :
    renormalize signals = mkBreakdown [0, 0, 0, 0, 0, 0] 0 signals.length := by
  have hfil : signals.filter (fun s => s.2.2) = [] := by
    rw [List.filter_eq_nil]
    intro s hs
    simp [h s hs]
  unfold renormalize
  dsimp only
  rw [hfil]
  simp

/-- All six signals available at their full weights: the breakdown total
is exactly the weight sum (the pass-through branch of `_renormalize`). -/
theorem renormalize_full (w1 w2 w3 w4 w5 w6 : ℤ)
    (hsum : w1 + w2 + w3 + w4 + w5 + w6 = 100) :
    (renormalize [(w1, w1, true), (w2, w2, true), (w3, w3, true),
      (w4, w4, true), (w5, w5, true), (w6, w6, true)]).total = 100 := by
  unfold renormalize
  dsimp only
  simp only [List.filter, List.map]
  split_ifs with h0 h100 hcap
  · exfalso
    simp at h0
    omega
  · simp [mkBreakdown, IntentBreakdown.total]
    omega
  · exfalso
    simp at h100
    omega
  · exfalso
    simp at h100
    omega

/-- C2: with configured nonnegative signal weights summing to 100, the
classifier's returned IntentBreakdown total is at most 100 for every
event and every combination of classifier inputs; when all six signals
are available with each raw score at its full weight the total is exactly
100; and when no signal is available all six sub-scores are 0. -/
theorem claim2_renormalization_bound (cfg : IntentScoringCfg)
    (event : FireEvent) (historyCount : ℤ) (monthsSinceLast : Option ℤ)
    (nearbyEventCount : ℤ)
    (hw1 : 0 ≤ cfg.weights.lightningAbsence)
    (hw2 : 0 ≤ cfg.weights.roadProximity)
    (hw3 : 0 ≤ cfg.weights.nighttimeIgnition)
    (hw4 : 0 ≤ cfg.weights.historicalRepeat)
    (hw5 : 0 ≤ cfg.weights.multiPointIgnition)
    (hw6 : 0 ≤ cfg.weights.dryConditions)
    (hsum : cfg.weights.lightningAbsence + cfg.weights.roadProximity
      + cfg.weights.nighttimeIgnition + cfg.weights.historicalRepeat
      + cfg.weights.multiPointIgnition + cfg.weights.dryConditions = 100) :
    (classify cfg event historyCount monthsSinceLast nearbyEventCount).total
      ≤ 100 ∧
    (renormalize [(cfg.weights.lightningAbsence, cfg.weights.lightningAbsence, true),
      (cfg.weights.roadProximity, cfg.weights.roadProximity, true),
      (cfg.weights.nighttimeIgnition, cfg.weights.nighttimeIgnition, true),
      (cfg.weights.historicalRepeat, cfg.weights.historicalRepeat, true),
      (cfg.weights.multiPointIgnition, cfg.weights.multiPointIgnition, true),
      (cfg.weights.dryConditions, cfg.weights.dryConditions, true)]).total
      = 100 ∧
    (∀ signals : List (ℤ × ℤ × Bool), (∀ s ∈ signals, s.2.2 = false) →
      renormalize signals
        = mkBreakdown [0, 0, 0, 0, 0, 0] 0 signals.length) := by
  refine ⟨?_, renormalize_full _ _ _ _ _ _ hsum,
    fun signals h => renormalize_all_unavailable signals h⟩
  unfold classify
  dsimp only
  apply renormalize_total_le
  · rfl
  · intro s hs
    simp only [List.mem_cons, List.not_mem_nil, or_false] at hs
    rcases hs with rfl | rfl | rfl | rfl | rfl | rfl
    · exact fun _ => scoreLightning_le _ _ hw1
    · exact fun _ => scoreRoadProximity_le _ _ _ hw2
    · exact fun _ => scoreNighttime_le _ _ _ hw3
    · exact fun _ => scoreHistorical_le _ _ _ hw4
    · exact fun _ => scoreMultiPoint_le _ _ hw5
    · exact fun _ => scoreDryConditions_le _ _ hw6
  · intro s hs
    simp only [List.mem_cons, List.not_mem_nil, or_false] at hs
    rcases hs with rfl | rfl | rfl | rfl | rfl | rfl
    · exact fun h => scoreLightning_unavail _ _ h
    · exact fun h => scoreRoadProximity_unavail _ _ _ h
    · intro h
      rw [scoreNighttime_avail] at h
      cases h
    · intro h
      rw [scoreHistorical_avail] at h
      cases h
    · intro h
      rw [scoreMultiPoint_avail] at h
      cases h
    · exact fun h => scoreDryConditions_unavail _ _ h


/-- Witness for C2 at the sample configuration (weights 25/20/20/15/10/10)
and the sample enriched event. -/
theorem claim2_renormalization_bound_witness :
    (classify sampleIntentCfg sampleEvent 3 (some 6) 3).total ≤ 100 ∧
    (renormalize [(25, 25, true), (20, 20, true), (20, 20, true),
      (15, 15, true), (10, 10, true), (10, 10, true)]).total = 100 ∧
    (∀ signals : List (ℤ × ℤ × Bool), (∀ s ∈ signals, s.2.2 = false) →
      renormalize signals
        = mkBreakdown [0, 0, 0, 0, 0, 0] 0 signals.length) :=
  claim2_renormalization_bound sampleIntentCfg sampleEvent 3 (some 6) 3
    (by decide) (by decide) (by decide) (by decide) (by decide) (by decide)
    (by decide)

/-- The breakdown's total-signal counter always equals the signal list
length. -/
theorem renormalize_totalSignals (signals : List (ℤ × ℤ × Bool)) :
    (renormalize signals).totalSignals = signals.length := by
  unfold renormalize
  dsimp only
  split_ifs <;> rfl

/-- The breakdown's active-signal counter never exceeds the signal list
length. -/
theorem renormalize_activeSignals_le (signals : List (ℤ × ℤ × Bool)) :
    (renormalize signals).activeSignals ≤ signals.length := by
  unfold renormalize
  dsimp only
  split_ifs
  · exact Nat.zero_le _
  · exact List.length_filter_le _ _
  · exact List.length_filter_le _ _
  · exact List.length_filter_le _ _

/-- C10: classifying an event with an empty member list is safe: the
weather and road contexts are treated as unavailable, the local hour
defaults to 12 (noon), the nighttime signal scores 0 (noon lies outside
the configured night windows), and a well-formed six-signal
IntentBreakdown is still returned. -/
theorem claim10_empty_event_classify (cfg : IntentScoringCfg)
    (event : FireEvent) (historyCount : ℤ) (monthsSinceLast : Option ℤ)
    (nearbyEventCount : ℤ) (hev : event.hotspots = [])
    (hp : inHourRange 12 cfg.nightHoursLocal.peak.1
      cfg.nightHoursLocal.peak.2 = false)
    (hsh : inHourRange 12 cfg.nightHoursLocal.shoulder.1
      cfg.nightHoursLocal.shoulder.2 = false)
    (hse : inHourRange 12 cfg.nightHoursLocal.shoulderEvening.1
      cfg.nightHoursLocal.shoulderEvening.2 = false) :
    getWeather event = none ∧ getRoad event = none ∧
    getLocalHour event = 12 ∧
    scoreNighttime cfg.weights cfg.nightHoursLocal event = (0, true) ∧
    (classify cfg event historyCount monthsSinceLast
      nearbyEventCount).totalSignals = 6 ∧
    (classify cfg event historyCount monthsSinceLast
      nearbyEventCount).activeSignals ≤ 6 := by
  have hhour : getLocalHour event = 12 := by
    unfold getLocalHour
    rw [hev]
  have hnight : scoreNighttime cfg.weights cfg.nightHoursLocal event
      = (0, true) := by
    unfold scoreNighttime
    rw [hhour]
    dsimp only
    rw [hp, hsh, hse]
    simp
  refine ⟨by simp [getWeather, hev], by simp [getRoad, hev], hhour, hnight,
    ?_, ?_⟩
  · unfold classify
    dsimp only
    rw [renormalize_totalSignals]
    rfl
  · unfold classify
    dsimp only
    exact renormalize_activeSignals_le _

/-- Witness for C10 at the sample configuration and the empty-member
sample event. -/
theorem claim10_empty_event_classify_witness :
    getWeather sampleEmptyEvent = none ∧ getRoad sampleEmptyEvent = none ∧
    getLocalHour sampleEmptyEvent = 12 ∧
    scoreNighttime sampleIntentCfg.weights sampleIntentCfg.nightHoursLocal
      sampleEmptyEvent = (0, true) ∧
    (classify sampleIntentCfg sampleEmptyEvent 0 none 0).totalSignals = 6 ∧
    (classify sampleIntentCfg sampleEmptyEvent 0 none 0).activeSignals ≤ 6 :=
  claim10_empty_event_classify sampleIntentCfg sampleEmptyEvent 0 none 0
    (by decide) (by decide) (by decide) (by decide)

/-- A fold of `min` never exceeds its initial accumulator. -/
theorem foldl_min_le_init (t : List ℚ) (acc : ℚ) : t.foldl min acc ≤ acc := by
  induction t generalizing acc with
  | nil => exact le_refl acc
  | cons x xs ih =>
    rw [List.foldl_cons]
    exact le_trans (ih (min acc x)) (min_le_left acc x)

/-- A fold of `min` is below every list element. -/
theorem foldl_min_le_mem (t : List ℚ) (acc x : ℚ) (hx : x ∈ t) :
    t.foldl min acc ≤ x := by
  induction t generalizing acc with
  | nil => cases hx
  | cons y ys ih =>
    rw [List.foldl_cons]
    rcases List.mem_cons.mp hx with rfl | hmem
    · exact le_trans (foldl_min_le_init ys (min acc x)) (min_le_right acc x)
    · exact ih (min acc y) hmem

/-- The Python min of a list is below every element. -/
theorem listMinQ_le (l : List ℚ) (x : ℚ) (hx : x ∈ l) : listMinQ l ≤ x := by
  match l, hx with
  | h :: t, hx =>
    rcases List.mem_cons.mp hx with rfl | hmem
    · exact foldl_min_le_init t x
    · exact foldl_min_le_mem t h x hmem

/-- A fold of `max` is at least its initial accumulator. -/
theorem init_le_foldl_max (t : List ℚ) (acc : ℚ) : acc ≤ t.foldl max acc := by
  induction t generalizing acc with
  | nil => exact le_refl acc
  | cons x xs ih =>
    rw [List.foldl_cons]
    exact le_trans (le_max_left acc x) (ih (max acc x))

/-- A fold of `max` is above every list element. -/
theorem mem_le_foldl_max (t : List ℚ) (acc x : ℚ) (hx : x ∈ t) :
    x ≤ t.foldl max acc := by
  induction t generalizing acc with
  | nil => cases hx
  | cons y ys ih =>
    rw [List.foldl_cons]
    rcases List.mem_cons.mp hx with rfl | hmem
    · exact le_trans (le_max_right acc x) (init_le_foldl_max ys (max acc x))
    · exact ih (max acc y) hmem

/-- The Python max of a list is above every element. -/
theorem le_listMaxQ (l : List ℚ) (x : ℚ) (hx : x ∈ l) : x ≤ listMaxQ l := by
  match l, hx with
  | h :: t, hx =>
    rcases List.mem_cons.mp hx with rfl | hmem
    · exact init_le_foldl_max t x
    · exact mem_le_foldl_max t h x hmem

/-- The duplicate test succeeds exactly when some candidate matches both
tolerances. -/
theorem isDuplicate_iff (dist : DistFn) (cfg : DedupConfig)
    (hs : RawHotspot) (candidates : List StoredHotspot) :
    isDuplicate dist cfg hs candidates = true ↔
      ∃ ex ∈ candidates,
        dist (hs.latitude, hs.longitude) (ex.latitude, ex.longitude)
          ≤ cfg.spatialToleranceM ∧
        ((timeDiffWrapped hs.acqTime ex.acqTime : ℚ))
          ≤ cfg.temporalToleranceMinutes := by
  unfold isDuplicate
  simp [List.any_eq_true]

/-- Membership in the per-candidate group: queried from the store, date
present in the batch, inside the padded bounding box, and matching the
candidate's source and date. -/
theorem mem_dedupCandidates (cfg : DedupConfig) (batch : List RawHotspot)
    (store : List StoredHotspot) (hs : RawHotspot) (ex : StoredHotspot) :
    ex ∈ dedupCandidates cfg batch store hs ↔
      ex ∈ store ∧ (∃ b ∈ batch, b.acqDate = ex.acqDate) ∧
      inDedupBBox cfg batch ex = true ∧
      ex.source = hs.source ∧ ex.acqDate = hs.acqDate := by
  unfold dedupCandidates dedupBBoxFilter
  simp [List.mem_filter, List.any_eq_true]
  tauto

/-- Membership in the dedup output: in the batch and not a duplicate. -/
theorem mem_deduplicate (dist : DistFn) (cfg : DedupConfig)
    (store : List StoredHotspot) (batch : List RawHotspot)
    (hs : RawHotspot) :
    hs ∈ deduplicate dist cfg store batch ↔
      hs ∈ batch ∧
      isDuplicate dist cfg hs (dedupCandidates cfg batch store hs)
        = false := by
  unfold deduplicate
  by_cases hb : batch.isEmpty
  · rw [if_pos hb]
    rw [List.isEmpty_iff] at hb
    simp [hb]
  · rw [if_neg hb]
    simp [List.mem_filter]

/-- C4 (amended): `deduplicate` returns a candidate as new iff no stored
hotspot with the same source and acquisition date lies within both the
spatial tolerance (by the distance function) and the temporal tolerance
(minutes with midnight wraparound), PROVIDED the padded bounding box is
adequate (`hcompat`: every same-date stored hotspot within the spatial
tolerance of the candidate lies inside the padded box).  The haversine
distance satisfies that proviso only up to about 48.3 degrees of
latitude: the padding is a fixed 1.5 * tol / 111000 degrees while a
within-tolerance east-west pair spans tol / (111195 * cos lat) degrees
of longitude, so the unconditional iff fails in the monitored region
(see the counterexample below).  The final conjunct is unconditional: a
candidate strictly beyond the spatial tolerance from every stored
hotspot is never a duplicate. -/
theorem claim4_dedup_match_rule (dist : DistFn) (cfg : DedupConfig)
    (store : List StoredHotspot) (batch : List RawHotspot)
    (hs : RawHotspot) (hmem : hs ∈ batch)
    (hcompat : ∀ ex ∈ store, ex.acqDate = hs.acqDate →
      dist (hs.latitude, hs.longitude) (ex.latitude, ex.longitude)
        ≤ cfg.spatialToleranceM → inDedupBBox cfg batch ex = true) :
    (hs ∈ deduplicate dist cfg store batch ↔
      ¬ ∃ ex ∈ store, ex.source = hs.source ∧ ex.acqDate = hs.acqDate ∧
        dist (hs.latitude, hs.longitude) (ex.latitude, ex.longitude)
          ≤ cfg.spatialToleranceM ∧
        ((timeDiffWrapped hs.acqTime ex.acqTime : ℚ))
          ≤ cfg.temporalToleranceMinutes) ∧
    ((∀ ex ∈ store,
        cfg.spatialToleranceM
          < dist (hs.latitude, hs.longitude) (ex.latitude, ex.longitude)) →
      hs ∈ deduplicate dist cfg store batch) := by
  constructor
  · rw [mem_deduplicate]
    constructor
    · rintro ⟨-, hdup⟩ ⟨ex, hex, hsrc, hdate, hdist, htime⟩
      have hcand : ex ∈ dedupCandidates cfg batch store hs := by
        rw [mem_dedupCandidates]
        exact ⟨hex, ⟨hs, hmem, hdate.symm⟩, hcompat ex hex hdate hdist,
          hsrc, hdate⟩
      have : isDuplicate dist cfg hs (dedupCandidates cfg batch store hs)
          = true := (isDuplicate_iff dist cfg hs _).mpr
        ⟨ex, hcand, hdist, htime⟩
      rw [this] at hdup
      cases hdup
    · intro hno
      refine ⟨hmem, ?_⟩
      cases hd : isDuplicate dist cfg hs (dedupCandidates cfg batch store hs)
      · rfl
      · exfalso
        obtain ⟨ex, hcand, hdist, htime⟩ :=
          (isDuplicate_iff dist cfg hs _).mp hd
        rw [mem_dedupCandidates] at hcand
        exact hno ⟨ex, hcand.1, hcand.2.2.2.1, hcand.2.2.2.2, hdist, htime⟩
  · intro hall
    rw [mem_deduplicate]
    refine ⟨hmem, ?_⟩
    cases hd : isDuplicate dist cfg hs (dedupCandidates cfg batch store hs)
    · rfl
    · exfalso
      obtain ⟨ex, hcand, hdist, -⟩ := (isDuplicate_iff dist cfg hs _).mp hd
      rw [mem_dedupCandidates] at hcand
      exact absurd hdist (not_le.mpr (hall ex hcand.1))


/-- Witness for C4: a single-candidate batch against a store holding one
same-date hotspot about 1.1 km away (beyond the 500 m tolerance under
`flatDist`), so the candidate comes back as new. -/
theorem claim4_dedup_match_rule_witness :
    (sampleHotspot ∈ deduplicate flatDist sampleDedupCfg [sampleFarStored]
      [sampleHotspot] ↔
      ¬ ∃ ex ∈ [sampleFarStored],
        ex.source = sampleHotspot.source ∧
        ex.acqDate = sampleHotspot.acqDate ∧
        flatDist (sampleHotspot.latitude, sampleHotspot.longitude)
          (ex.latitude, ex.longitude) ≤ sampleDedupCfg.spatialToleranceM ∧
        ((timeDiffWrapped sampleHotspot.acqTime ex.acqTime : ℚ))
          ≤ sampleDedupCfg.temporalToleranceMinutes) ∧
    ((∀ ex ∈ [sampleFarStored],
      sampleDedupCfg.spatialToleranceM
        < flatDist (sampleHotspot.latitude, sampleHotspot.longitude)
            (ex.latitude, ex.longitude)) →
      sampleHotspot ∈ deduplicate flatDist sampleDedupCfg [sampleFarStored]
        [sampleHotspot]) :=
  claim4_dedup_match_rule flatDist sampleDedupCfg _ _ sampleHotspot
    (by simp)
    (by
      intro ex hex hdate hdist
      exfalso
      simp only [List.mem_singleton] at hex
      subst hex
      revert hdist
      norm_num [flatDist, sampleFarStored, toStored, sampleHotspot,
        sampleDedupCfg, abs_of_nonneg])

/-- C4 counterexample: at 50 degrees south the claim as stated is false.
`polarStored` matches `polarHotspot` (same source and date, 499.6 m
distance inside the 500 m tolerance, equal acquisition times), yet
`deduplicate` still returns the candidate as new, because the stored
match lies 0.00699 degrees of longitude away -- outside the padded
bounding box of 0.006757 degrees -- so the batched range query never
sees it. -/
theorem claim4_dedup_match_rule_counterexample :
    polarHotspot ∈ deduplicate patagoniaDist sampleDedupCfg [polarStored]
      [polarHotspot] ∧
    polarStored.source = polarHotspot.source ∧
    polarStored.acqDate = polarHotspot.acqDate ∧
    patagoniaDist (polarHotspot.latitude, polarHotspot.longitude)
      (polarStored.latitude, polarStored.longitude)
      ≤ sampleDedupCfg.spatialToleranceM ∧
    ((timeDiffWrapped polarHotspot.acqTime polarStored.acqTime : ℚ))
      ≤ sampleDedupCfg.temporalToleranceMinutes := by
  refine ⟨?_, rfl, rfl, ?_, ?_⟩
  · norm_num [deduplicate, isDuplicate, dedupCandidates, dedupBBoxFilter,
      inDedupBBox, bboxPaddingDegrees, listMinQ, listMaxQ, List.filter,
      polarHotspot, polarStored, sampleDedupCfg]
  · norm_num [patagoniaDist, polarHotspot, polarStored, sampleDedupCfg,
      abs_of_nonneg]
  · norm_num [timeDiffWrapped, polarHotspot, polarStored, sampleDedupCfg]

/-- The wrapped time difference of equal times is zero. -/
theorem timeDiffWrapped_self (t : ℤ) : timeDiffWrapped t t = 0 := by
  unfold timeDiffWrapped
  simp

/-- The bounding-box padding is nonnegative for a nonnegative
tolerance. -/
theorem bboxPaddingDegrees_nonneg (tol : ℚ) (h : 0 ≤ tol) :
    0 ≤ bboxPaddingDegrees tol := by
  unfold bboxPaddingDegrees
  positivity

/-- Every raw hotspot persisted by `store_hotspots` appears as its ORM
record under some generated identity. -/
theorem mem_storeHotspots (l : List RawHotspot) (hs : RawHotspot)
    (h : hs ∈ l) (n : ℤ) : ∃ i, toStored i hs ∈ storeHotspots n l := by
  induction l generalizing n with
  | nil => cases h
  | cons x xs ih =>
    rcases List.mem_cons.mp h with rfl | hmem
    · exact ⟨n, List.mem_cons_self _ _⟩
    · obtain ⟨i, hi⟩ := ih hmem (n + 1)
      exact ⟨i, List.mem_cons_of_mem _ hi⟩

/-- A batch member's own stored copy passes the padded bounding-box
test (nonnegative tolerance). -/
theorem inDedupBBox_self (cfg : DedupConfig) (batch : List RawHotspot)
    (hs : RawHotspot) (hmem : hs ∈ batch) (i : ℤ)
    (hstol : 0 ≤ cfg.spatialToleranceM) :
    inDedupBBox cfg batch (toStored i hs) = true := by
  have hpad := bboxPaddingDegrees_nonneg cfg.spatialToleranceM hstol
  have hlat : hs.latitude ∈ batch.map (·.latitude) :=
    List.mem_map_of_mem _ hmem
  have hlon : hs.longitude ∈ batch.map (·.longitude) :=
    List.mem_map_of_mem _ hmem
  have h1 := listMinQ_le _ _ hlat
  have h2 := le_listMaxQ _ _ hlat
  have h3 := listMinQ_le _ _ hlon
  have h4 := le_listMaxQ _ _ hlon
  unfold inDedupBBox
  dsimp only
  simp only [toStored, Bool.and_eq_true, decide_eq_true_eq]
  refine ⟨⟨⟨by linarith, by linarith⟩, by linarith⟩, by linarith⟩

/-- C5: dedup idempotence.  Running `deduplicate` on a batch, persisting
the returned new hotspots with `store_hotspots`, and running
`deduplicate` again on the same batch against the grown store returns no
new hotspots, for a distance function that is zero on equal points and
nonnegative tolerances. -/
theorem claim5_dedup_idempotent (dist : DistFn) (cfg : DedupConfig)
    (store : List StoredHotspot) (batch : List RawHotspot) (n : ℤ)
    (hself : ∀ p : ℚ × ℚ, dist p p = 0)
    (hstol : 0 ≤ cfg.spatialToleranceM)
    (httol : 0 ≤ cfg.temporalToleranceMinutes) :
    deduplicate dist cfg
      (store ++ storeHotspots n (deduplicate dist cfg store batch)) batch
      = [] := by
  rw [List.eq_nil_iff_forall_not_mem]
  intro hs hout
  rw [mem_deduplicate] at hout
  obtain ⟨hmem, hdupf⟩ := hout
  cases hd : isDuplicate dist cfg hs (dedupCandidates cfg batch store hs) with
  | true =>
    obtain ⟨ex, hcand, hdist, htime⟩ := (isDuplicate_iff dist cfg hs _).mp hd
    rw [mem_dedupCandidates] at hcand
    have hcand2 : ex ∈ dedupCandidates cfg batch
        (store ++ storeHotspots n (deduplicate dist cfg store batch)) hs := by
      rw [mem_dedupCandidates]
      exact ⟨List.mem_append_left _ hcand.1, hcand.2.1, hcand.2.2.1,
        hcand.2.2.2.1, hcand.2.2.2.2⟩
    have : isDuplicate dist cfg hs (dedupCandidates cfg batch
        (store ++ storeHotspots n (deduplicate dist cfg store batch)) hs)
        = true :=
      (isDuplicate_iff dist cfg hs _).mpr ⟨ex, hcand2, hdist, htime⟩
    rw [this] at hdupf
    cases hdupf
  | false =>
    have hfirst : hs ∈ deduplicate dist cfg store batch :=
      (mem_deduplicate dist cfg store batch hs).mpr ⟨hmem, hd⟩
    obtain ⟨i, hstored⟩ :=
      mem_storeHotspots (deduplicate dist cfg store batch) hs hfirst n
    have hcand2 : toStored i hs ∈ dedupCandidates cfg batch
        (store ++ storeHotspots n (deduplicate dist cfg store batch)) hs := by
      rw [mem_dedupCandidates]
      refine ⟨List.mem_append_right _ hstored, ⟨hs, hmem, rfl⟩,
        inDedupBBox_self cfg batch hs hmem i hstol, rfl, rfl⟩
    have : isDuplicate dist cfg hs (dedupCandidates cfg batch
        (store ++ storeHotspots n (deduplicate dist cfg store batch)) hs)
        = true := by
      refine (isDuplicate_iff dist cfg hs _).mpr ⟨toStored i hs, hcand2, ?_, ?_⟩
      · rw [show ((toStored i hs).latitude, (toStored i hs).longitude)
          = (hs.latitude, hs.longitude) from rfl]
        rw [hself]
        exact hstol
      · rw [show (toStored i hs).acqTime = hs.acqTime from rfl]
        rw [timeDiffWrapped_self]
        simpa using httol
    rw [this] at hdupf
    cases hdupf

/-- Witness for C5: the sample batch deduplicated against the sample
store twice with the flat distance and the sample tolerances. -/
theorem claim5_dedup_idempotent_witness :
    deduplicate flatDist sampleDedupCfg
      ([sampleFarStored] ++ storeHotspots 9
        (deduplicate flatDist sampleDedupCfg [sampleFarStored]
          [sampleHotspot]))
      [sampleHotspot] = [] :=
  claim5_dedup_idempotent flatDist sampleDedupCfg [sampleFarStored]
    [sampleHotspot] 9
    (by
      intro p
      simp [flatDist])
    (by decide) (by decide)

/-- Flushing two identical raw hotspots always violates the unique
constraint: whatever the prior table contents, it raises IntegrityError
and persists nothing. -/
theorem storeHotspotsFlush_pair_fails (store : List StoredHotspot)
    (n : ℤ) (h : RawHotspot) :
    storeHotspotsFlush store n [h, h]
      = .error "IntegrityError: UNIQUE constraint failed" := by
  unfold storeHotspotsFlush
  dsimp only
  rw [if_neg]
  intro hnd
  rw [show storeHotspots n [h, h] = [toStored n h, toStored (n + 1) h]
    from rfl, List.map_append] at hnd
  have hsub : ([toStored n h, toStored (n + 1) h].map hotspotKey).Sublist
      (store.map hotspotKey
        ++ [toStored n h, toStored (n + 1) h].map hotspotKey) :=
    List.sublist_append_right _ _
  have hnd2 := hnd.sublist hsub
  simp [hotspotKey, toStored] at hnd2

/-- C9 (amended): `deduplicate` compares candidates only against stored
hotspots, never against other members of the same batch: a batch of two
identical hotspots with no stored match comes back whole, and the
store_hotspots record loop builds two records with distinct generated
identities -- but the session flush then violates the hotspots table's
unique constraint on (source, latitude, longitude, acq_date, acq_time),
raising IntegrityError so that neither row is persisted. -/
theorem claim9_batch_self_duplicates (dist : DistFn) (cfg : DedupConfig)
    (store : List StoredHotspot) (h : RawHotspot) (n : ℤ)
    (hnomatch : ∀ ex ∈ store, ex.source = h.source →
      ex.acqDate = h.acqDate →
      ¬(dist (h.latitude, h.longitude) (ex.latitude, ex.longitude)
          ≤ cfg.spatialToleranceM ∧
        ((timeDiffWrapped h.acqTime ex.acqTime : ℚ))
          ≤ cfg.temporalToleranceMinutes)) :
    deduplicate dist cfg store [h, h] = [h, h] ∧
    (storeHotspots n (deduplicate dist cfg store [h, h])).length = 2 ∧
    ((storeHotspots n (deduplicate dist cfg store [h, h])).map
      (·.id)).Nodup ∧
    storeHotspotsFlush store n (deduplicate dist cfg store [h, h])
      = .error "IntegrityError: UNIQUE constraint failed" := by
  have hkeep : isDuplicate dist cfg h (dedupCandidates cfg [h, h] store h)
      = false := by
    cases hd : isDuplicate dist cfg h (dedupCandidates cfg [h, h] store h)
    · rfl
    · exfalso
      obtain ⟨ex, hcand, hdist, htime⟩ :=
        (isDuplicate_iff dist cfg h _).mp hd
      rw [mem_dedupCandidates] at hcand
      exact hnomatch ex hcand.1 hcand.2.2.2.1 hcand.2.2.2.2 ⟨hdist, htime⟩
  have hded : deduplicate dist cfg store [h, h] = [h, h] := by
    unfold deduplicate
    rw [if_neg (by simp)]
    simp [List.filter, hkeep]
  refine ⟨hded, ?_, ?_, ?_⟩
  · rw [hded]
    rfl
  · rw [hded]
    show ([n, n + 1] : List ℤ).Nodup
    simp
  · rw [hded]
    exact storeHotspotsFlush_pair_fails store n h

/-- Witness for C9: two copies of the sample hotspot against the
single-record sample store (whose record is beyond tolerance). -/
theorem claim9_batch_self_duplicates_witness :
    deduplicate flatDist sampleDedupCfg [sampleFarStored]
      [sampleHotspot, sampleHotspot] = [sampleHotspot, sampleHotspot] ∧
    (storeHotspots 9 (deduplicate flatDist sampleDedupCfg [sampleFarStored]
      [sampleHotspot, sampleHotspot])).length = 2 ∧
    ((storeHotspots 9 (deduplicate flatDist sampleDedupCfg [sampleFarStored]
      [sampleHotspot, sampleHotspot])).map (·.id)).Nodup ∧
    storeHotspotsFlush [sampleFarStored] 9
      (deduplicate flatDist sampleDedupCfg [sampleFarStored]
        [sampleHotspot, sampleHotspot])
      = .error "IntegrityError: UNIQUE constraint failed" :=
  claim9_batch_self_duplicates flatDist sampleDedupCfg [sampleFarStored]
    sampleHotspot 9
    (by
      intro ex hex hsrc hdate hcon
      simp only [List.mem_singleton] at hex
      subst hex
      rcases hcon with ⟨hdist, -⟩
      revert hdist
      norm_num [flatDist, sampleFarStored, toStored, sampleHotspot,
        sampleDedupCfg, abs_of_nonneg])

/-- C9 counterexample: the claim's persistence half is false as stated.
For the concrete two-copy batch, `deduplicate` does return both copies,
but the subsequent store-and-flush hits the hotspots table's unique
constraint and raises IntegrityError instead of inserting them. -/
theorem claim9_batch_self_duplicates_counterexample :
    deduplicate flatDist sampleDedupCfg [sampleFarStored]
      [sampleHotspot, sampleHotspot] = [sampleHotspot, sampleHotspot] ∧
    storeHotspotsFlush [sampleFarStored] 9
      (deduplicate flatDist sampleDedupCfg [sampleFarStored]
        [sampleHotspot, sampleHotspot])
      = .error "IntegrityError: UNIQUE constraint failed" := by
  have hded : deduplicate flatDist sampleDedupCfg [sampleFarStored]
      [sampleHotspot, sampleHotspot] = [sampleHotspot, sampleHotspot] := by
    norm_num [deduplicate, isDuplicate, dedupCandidates, dedupBBoxFilter,
      inDedupBBox, bboxPaddingDegrees, listMinQ, listMaxQ, List.filter,
      flatDist, sampleFarStored, toStored, sampleHotspot, sampleDedupCfg,
      timeDiffWrapped, abs_of_nonneg]
  refine ⟨hded, ?_⟩
  rw [hded]
  exact storeHotspotsFlush_pair_fails [sampleFarStored] 9 sampleHotspot

/-- Membership through the stable insertion step. -/
theorem mem_insertByDt (hs x : EnrichedHotspot) (l : List EnrichedHotspot) :
    x ∈ insertByDt hs l ↔ x = hs ∨ x ∈ l := by
  induction l with
  | nil => simp [insertByDt]
  | cons h t ih =>
    unfold insertByDt
    split_ifs
    · simp [List.mem_cons]
    · simp [List.mem_cons, ih]
      tauto

/-- Sorting by acquisition datetime preserves membership. -/
theorem mem_sortByDatetime (x : EnrichedHotspot) (l : List EnrichedHotspot) :
    x ∈ sortByDatetime l ↔ x ∈ l := by
  induction l with
  | nil => simp [sortByDatetime]
  | cons h t ih =>
    unfold sortByDatetime
    rw [mem_insertByDt, ih, List.mem_cons]

/-- Member preservation through the store-event assignment step. -/
theorem assignToDb_members (dist : DistFn) (radius : ℚ)
    (hs : EnrichedHotspot) (clusters cs : List Cluster)
    (h : assignToDb dist radius hs clusters = some cs)
    (P : EnrichedHotspot → Prop)
    (hP : ∀ c ∈ clusters, ∀ m ∈ c.1, P m) (Phs : P hs) :
    ∀ c ∈ cs, ∀ m ∈ c.1, P m := by
  induction clusters generalizing cs with
  | nil => cases h
  | cons c0 rest ih =>
    unfold assignToDb at h
    rcases hdb : c0.2 with - | ev
    · rw [hdb] at h
      dsimp only at h
      cases hrec : assignToDb dist radius hs rest with
      | none =>
        rw [hrec] at h
        cases h
      | some cs2 =>
        rw [hrec] at h
        simp only [Option.map_some'] at h
        rw [Option.some_inj] at h
        subst h
        intro c hc m hm
        rcases List.mem_cons.mp hc with rfl | hc2
        · exact hP c (List.mem_cons_self _ _) m hm
        · exact ih cs2 hrec
            (fun c h2 => hP c (List.mem_cons_of_mem _ h2)) c hc2 m hm
    · rw [hdb] at h
      dsimp only at h
      split_ifs at h with hdist
      · simp only [Option.some_inj] at h
        subst h
        intro c hc m hm
        rcases List.mem_cons.mp hc with rfl | hc2
        · rcases List.mem_append.mp hm with hm2 | hm2
          · exact hP c0 (List.mem_cons_self _ _) m hm2
          · rw [List.mem_singleton] at hm2
            subst hm2
            exact Phs
        · exact hP c (List.mem_cons_of_mem _ hc2) m hm
      · cases hrec : assignToDb dist radius hs rest with
        | none =>
          rw [hrec] at h
          cases h
        | some cs2 =>
          rw [hrec] at h
          simp only [Option.map_some'] at h
          rw [Option.some_inj] at h
          subst h
          intro c hc m hm
          rcases List.mem_cons.mp hc with rfl | hc2
          · exact hP c (List.mem_cons_self _ _) m hm
          · exact ih cs2 hrec
              (fun c h2 => hP c (List.mem_cons_of_mem _ h2)) c hc2 m hm

/-- Member preservation through the in-memory assignment step. -/
theorem assignToMemory_members (dist : DistFn) (radius : ℚ) (win : ℤ)
    (hs : EnrichedHotspot) (clusters cs : List Cluster)
    (h : assignToMemory dist radius win hs clusters = some cs)
    (P : EnrichedHotspot → Prop)
    (hP : ∀ c ∈ clusters, ∀ m ∈ c.1, P m) (Phs : P hs) :
    ∀ c ∈ cs, ∀ m ∈ c.1, P m := by
  induction clusters generalizing cs with
  | nil => cases h
  | cons c0 rest ih =>
    unfold assignToMemory at h
    split_ifs at h with hcond
    · rw [Option.some_inj] at h
      subst h
      intro c hc m hm
      rcases List.mem_cons.mp hc with rfl | hc2
      · rcases List.mem_append.mp hm with hm2 | hm2
        · exact hP c0 (List.mem_cons_self _ _) m hm2
        · rw [List.mem_singleton] at hm2
          subst hm2
          exact Phs
      · exact hP c (List.mem_cons_of_mem _ hc2) m hm
    · cases hrec : assignToMemory dist radius win hs rest with
      | none =>
        rw [hrec] at h
        cases h
      | some cs2 =>
        rw [hrec] at h
        simp only [Option.map_some'] at h
        rw [Option.some_inj] at h
        subst h
        intro c hc m hm
        rcases List.mem_cons.mp hc with rfl | hc2
        · exact hP c (List.mem_cons_self _ _) m hm
        · exact ih cs2 hrec
            (fun c h2 => hP c (List.mem_cons_of_mem _ h2)) c hc2 m hm

/-- Member preservation through the assignment of one hotspot. -/
theorem assignHotspot_members (dist : DistFn) (radius : ℚ) (win : ℤ)
    (clusters : List Cluster) (hs : EnrichedHotspot)
    (P : EnrichedHotspot → Prop)
    (hP : ∀ c ∈ clusters, ∀ m ∈ c.1, P m) (Phs : P hs) :
    ∀ c ∈ assignHotspot dist radius win clusters hs, ∀ m ∈ c.1, P m := by
  unfold assignHotspot
  cases hdb : assignToDb dist radius hs clusters with
  | some cs => exact assignToDb_members dist radius hs clusters cs hdb P hP Phs
  | none =>
    cases hmem : assignToMemory dist radius win hs clusters with
    | some cs =>
      exact assignToMemory_members dist radius win hs clusters cs hmem P hP Phs
    | none =>
      intro c hc m hm
      rcases List.mem_append.mp hc with hc2 | hc2
      · exact hP c hc2 m hm
      · rw [List.mem_singleton] at hc2
        subst hc2
        rw [List.mem_singleton] at hm
        subst hm
        exact Phs

/-- Member preservation through the whole assignment fold. -/
theorem foldl_assign_members (dist : DistFn) (radius : ℚ) (win : ℤ)
    (l : List EnrichedHotspot) (clusters : List Cluster)
    (P : EnrichedHotspot → Prop)
    (hP : ∀ c ∈ clusters, ∀ m ∈ c.1, P m) (hl : ∀ hs ∈ l, P hs) :
    ∀ c ∈ l.foldl (assignHotspot dist radius win) clusters,
      ∀ m ∈ c.1, P m := by
  induction l generalizing clusters with
  | nil => exact hP
  | cons hs rest ih =>
    rw [List.foldl_cons]
    exact ih _
      (assignHotspot_members dist radius win clusters hs P hP
        (hl hs (List.mem_cons_self _ _)))
      (fun x hx => hl x (List.mem_cons_of_mem _ hx))

/-- Every member of every final cluster comes from the input batch. -/
theorem finalClusters_members (dist : DistFn) (cfg : ClusteringConfig)
    (dbEvents : List DBFireEvent) (hotspots : List EnrichedHotspot) :
    ∀ c ∈ finalClusters dist cfg dbEvents hotspots,
      ∀ m ∈ c.1, m ∈ hotspots := by
  unfold finalClusters
  apply foldl_assign_members
  · intro c hc m hm
    rw [List.mem_map] at hc
    obtain ⟨ev, -, rfl⟩ := hc
    cases hm
  · intro hs hhs
    exact (mem_sortByDatetime hs hotspots).mp hhs

/-- The store-event assignment step does not change the sequence of
seeding store events. -/
theorem assignToDb_dbParts (dist : DistFn) (radius : ℚ)
    (hs : EnrichedHotspot) (clusters cs : List Cluster)
    (h : assignToDb dist radius hs clusters = some cs) :
    cs.filterMap (·.2) = clusters.filterMap (·.2) := by
  induction clusters generalizing cs with
  | nil => cases h
  | cons c0 rest ih =>
    unfold assignToDb at h
    rcases hdb : c0.2 with - | ev
    · rw [hdb] at h
      dsimp only at h
      cases hrec : assignToDb dist radius hs rest with
      | none =>
        rw [hrec] at h
        cases h
      | some cs2 =>
        rw [hrec] at h
        simp only [Option.map_some'] at h
        rw [Option.some_inj] at h
        subst h
        simp [List.filterMap_cons, ih cs2 hrec]
    · rw [hdb] at h
      dsimp only at h
      split_ifs at h with hdist
      · rw [Option.some_inj] at h
        subst h
        simp [List.filterMap_cons, hdb]
      · cases hrec : assignToDb dist radius hs rest with
        | none =>
          rw [hrec] at h
          cases h
        | some cs2 =>
          rw [hrec] at h
          simp only [Option.map_some'] at h
          rw [Option.some_inj] at h
          subst h
          simp [List.filterMap_cons, ih cs2 hrec]

/-- The in-memory assignment step does not change the sequence of
seeding store events. -/
theorem assignToMemory_dbParts (dist : DistFn) (radius : ℚ) (win : ℤ)
    (hs : EnrichedHotspot) (clusters cs : List Cluster)
    (h : assignToMemory dist radius win hs clusters = some cs) :
    cs.filterMap (·.2) = clusters.filterMap (·.2) := by
  induction clusters generalizing cs with
  | nil => cases h
  | cons c0 rest ih =>
    unfold assignToMemory at h
    split_ifs at h with hcond
    · rw [Option.some_inj] at h
      subst h
      simp [List.filterMap_cons]
    · cases hrec : assignToMemory dist radius win hs rest with
      | none =>
        rw [hrec] at h
        cases h
      | some cs2 =>
        rw [hrec] at h
        simp only [Option.map_some'] at h
        rw [Option.some_inj] at h
        subst h
        simp [List.filterMap_cons, ih cs2 hrec]

/-- Assigning a hotspot does not change the sequence of seeding store
events. -/
theorem assignHotspot_dbParts (dist : DistFn) (radius : ℚ) (win : ℤ)
    (clusters : List Cluster) (hs : EnrichedHotspot) :
    (assignHotspot dist radius win clusters hs).filterMap (·.2)
      = clusters.filterMap (·.2) := by
  unfold assignHotspot
  cases hdb : assignToDb dist radius hs clusters with
  | some cs => exact assignToDb_dbParts dist radius hs clusters cs hdb
  | none =>
    cases hmem : assignToMemory dist radius win hs clusters with
    | some cs => exact assignToMemory_dbParts dist radius win hs clusters cs hmem
    | none => simp [List.filterMap_append]

/-- The final clusters carry exactly the fetched store events, in
order. -/
theorem finalClusters_dbParts (dist : DistFn) (cfg : ClusteringConfig)
    (dbEvents : List DBFireEvent) (hotspots : List EnrichedHotspot) :
    (finalClusters dist cfg dbEvents hotspots).filterMap (·.2)
      = dbEvents := by
  unfold finalClusters
  suffices hgen : ∀ (l : List EnrichedHotspot) (clusters : List Cluster),
      (l.foldl (assignHotspot dist cfg.spatialRadiusM
        (cfg.temporalWindowHours * 60)) clusters).filterMap (·.2)
        = clusters.filterMap (·.2) by
    rw [hgen]
    rw [List.filterMap_map]
    simp [Function.comp_def]
  intro l
  induction l with
  | nil => intro clusters; rfl
  | cons hs rest ih =>
    intro clusters
    rw [List.foldl_cons, ih, assignHotspot_dbParts]

/-- Every built event takes its member list from a nonempty cluster. -/
theorem buildEvents_events_shape (cfg : ClusteringConfig) :
    ∀ (clusters : List Cluster) (n : ℤ),
      ∀ e ∈ (buildEvents cfg n clusters).1,
        ∃ c ∈ clusters, e.hotspots = c.1 ∧ c.1 ≠ [] := by
  intro clusters
  induction clusters with
  | nil =>
    intro n e he
    simp [buildEvents] at he
  | cons c0 rest ih =>
    intro n e he
    unfold buildEvents at he
    dsimp only at he
    rcases hm : c0.1 with - | ⟨m0, ms⟩
    · rw [hm] at he
      dsimp only at he
      obtain ⟨c, hc, h1, h2⟩ := ih n e he
      exact ⟨c, List.mem_cons_of_mem _ hc, h1, h2⟩
    · rw [hm] at he
      rcases hdb : c0.2 with - | ev
      · rw [hdb] at he
        dsimp only at he
        rcases List.mem_cons.mp he with rfl | he2
        · exact ⟨c0, List.mem_cons_self _ _, by rw [hm]; rfl,
            by rw [hm]; simp⟩
        · obtain ⟨c, hc, h1, h2⟩ := ih (n + 1) e he2
          exact ⟨c, List.mem_cons_of_mem _ hc, h1, h2⟩
      · rw [hdb] at he
        dsimp only at he
        rcases List.mem_cons.mp he with rfl | he2
        · exact ⟨c0, List.mem_cons_self _ _, by rw [hm]; rfl,
            by rw [hm]; simp⟩
        · obtain ⟨c, hc, h1, h2⟩ := ih n e he2
          exact ⟨c, List.mem_cons_of_mem _ hc, h1, h2⟩

/-- A built event carrying a store-event identity comes from a nonempty
db-seeded cluster with that identity. -/
theorem buildEvents_db_id (cfg : ClusteringConfig) :
    ∀ (clusters : List Cluster) (n : ℤ),
      ∀ e ∈ (buildEvents cfg n clusters).1, ∀ i : ℤ, e.id = .db i →
        ∃ c ∈ clusters, ∃ ev : DBFireEvent,
          c.2 = some ev ∧ ev.id = i ∧ c.1 ≠ [] := by
  intro clusters
  induction clusters with
  | nil =>
    intro n e he
    simp [buildEvents] at he
  | cons c0 rest ih =>
    intro n e he i hid
    unfold buildEvents at he
    dsimp only at he
    rcases hm : c0.1 with - | ⟨m0, ms⟩
    · rw [hm] at he
      dsimp only at he
      obtain ⟨c, hc, ev, h1, h2, h3⟩ := ih n e he i hid
      exact ⟨c, List.mem_cons_of_mem _ hc, ev, h1, h2, h3⟩
    · rw [hm] at he
      rcases hdb : c0.2 with - | ev
      · rw [hdb] at he
        dsimp only at he
        rcases List.mem_cons.mp he with rfl | he2
        · exfalso
          rw [show (newEvent cfg n (m0 :: ms)).id = .fresh n from rfl] at hid
          cases hid
        · obtain ⟨c, hc, ev, h1, h2, h3⟩ := ih (n + 1) e he2 i hid
          exact ⟨c, List.mem_cons_of_mem _ hc, ev, h1, h2, h3⟩
      · rw [hdb] at he
        dsimp only at he
        rcases List.mem_cons.mp he with rfl | he2
        · rw [show (mergedEvent cfg ev (m0 :: ms)).id = .db ev.id from rfl]
            at hid
          cases hid
          exact ⟨c0, List.mem_cons_self _ _, ev, hdb, rfl, by rw [hm]; simp⟩
        · obtain ⟨c, hc, ev2, h1, h2, h3⟩ := ih n e he2 i hid
          exact ⟨c, List.mem_cons_of_mem _ hc, ev2, h1, h2, h3⟩

/-- The updated store record of every nonempty db-seeded cluster is
among the updates returned by the build phase. -/
theorem mergedUpdate_mem_buildEvents (cfg : ClusteringConfig) :
    ∀ (clusters : List Cluster) (n : ℤ) (c : Cluster) (ev : DBFireEvent),
      c ∈ clusters → c.1 ≠ [] → c.2 = some ev →
      mergedUpdate cfg ev c.1 ∈ (buildEvents cfg n clusters).2 := by
  intro clusters
  induction clusters with
  | nil =>
    intro n c ev hc
    cases hc
  | cons c0 rest ih =>
    intro n c ev hc hne hdb
    unfold buildEvents
    dsimp only
    rcases List.mem_cons.mp hc with rfl | hc2
    · rcases hm : c.1 with - | ⟨m0, ms⟩
      · exact absurd hm hne
      · rw [hdb]
        dsimp only
        exact List.mem_cons_self _ _
    · rcases hm : c0.1 with - | ⟨m0, ms⟩
      · dsimp only
        exact ih n c ev hc2 hne hdb
      · rcases hdb0 : c0.2 with - | ev0
        · dsimp only
          exact ih (n + 1) c ev hc2 hne hdb
        · dsimp only
          exact List.mem_cons_of_mem _ (ih n c ev hc2 hne hdb)

/-- The Python max of a nonempty rational list is one of its elements. -/
theorem listMaxQ_mem (l : List ℚ) (hl : l ≠ []) : listMaxQ l ∈ l := by
  match l, hl with
  | h :: t, _ =>
    suffices hgen : ∀ (t : List ℚ) (acc : ℚ), t.foldl max acc ∈ acc :: t by
      exact hgen t h
    intro t
    induction t with
    | nil => intro acc; simp
    | cons x xs ih =>
      intro acc
      rw [List.foldl_cons]
      rcases max_choice acc x with hm | hm <;> rw [hm]
      · rcases List.mem_cons.mp (ih acc) with h1 | h1 <;> simp [h1]
      · rcases List.mem_cons.mp (ih x) with h1 | h1 <;> simp [h1]

/-- C3: when `cluster_hotspots` merges K current-batch hotspots into a
pre-existing store event holding N prior hotspots, the updated store
record's count is N + K and its peak FRP is the maximum of the
pre-existing peak and the maximum FRP among the K new hotspots. -/
theorem claim3_merge_count_and_peak (dist : DistFn)
    (cfg : ClusteringConfig) (dbEvents : List DBFireEvent) (freshId : ℤ)
    (hotspots : List EnrichedHotspot) (c : Cluster) (ev : DBFireEvent)
    (hc : c ∈ finalClusters dist cfg dbEvents hotspots)
    (hdb : c.2 = some ev) (hne : c.1 ≠ []) (hbatch : hotspots ≠ []) :
    mergedUpdate cfg ev c.1
      ∈ (clusterHotspots dist cfg dbEvents freshId hotspots).2 ∧
    (mergedUpdate cfg ev c.1).hotspotCount
      = ev.hotspotCount + c.1.length ∧
    (mergedUpdate cfg ev c.1).maxFrp = max (maxFrpOf c.1) ev.maxFrp ∧
    (∀ m ∈ c.1, m.hotspot.frp ≤ maxFrpOf c.1) ∧
    maxFrpOf c.1 ∈ c.1.map (·.hotspot.frp) := by
  refine ⟨?_, rfl, rfl, ?_, ?_⟩
  · unfold clusterHotspots
    rw [if_neg (by simpa using hbatch)]
    exact mergedUpdate_mem_buildEvents cfg _ freshId c ev hc hne hdb
  · intro m hm
    unfold maxFrpOf
    exact le_listMaxQ _ _ (List.mem_map_of_mem _ hm)
  · unfold maxFrpOf
    exact listMaxQ_mem _ (by simp [hne])

/-- Witness for C3: the enriched sample hotspot merges into the sample
store event (4 prior hotspots, peak 40 MW) under the flat distance. -/
theorem claim3_merge_count_and_peak_witness :
    mergedUpdate sampleClusterCfg sampleDbEvent [sampleEnriched]
      ∈ (clusterHotspots flatDist sampleClusterCfg [sampleDbEvent] 0
          [sampleEnriched]).2 ∧
    (mergedUpdate sampleClusterCfg sampleDbEvent
      [sampleEnriched]).hotspotCount
      = sampleDbEvent.hotspotCount + [sampleEnriched].length ∧
    (mergedUpdate sampleClusterCfg sampleDbEvent [sampleEnriched]).maxFrp
      = max (maxFrpOf [sampleEnriched]) sampleDbEvent.maxFrp ∧
    (∀ m ∈ [sampleEnriched], m.hotspot.frp ≤ maxFrpOf [sampleEnriched]) ∧
    maxFrpOf [sampleEnriched] ∈ [sampleEnriched].map (·.hotspot.frp) :=
  claim3_merge_count_and_peak flatDist sampleClusterCfg [sampleDbEvent] 0
    [sampleEnriched] ([sampleEnriched], some sampleDbEvent) sampleDbEvent
    (by
      have hfc : finalClusters flatDist sampleClusterCfg [sampleDbEvent]
          [sampleEnriched] = [([sampleEnriched], some sampleDbEvent)] := by
        norm_num [finalClusters, sortByDatetime, insertByDt, assignHotspot,
          assignToDb, assignToMemory, flatDist, sampleDbEvent,
          sampleEnriched, sampleHotspot, sampleClusterCfg]
      rw [hfc]
      exact List.mem_singleton.mpr rfl)
    rfl (by simp) (by simp)

/-- C7: every FireEvent returned by `cluster_hotspots` has a non-empty
member list drawn entirely from the current input batch, and a
store-seeded candidate event that received no current-batch hotspot is
omitted from the returned list (assuming distinct store-event ids, the
table's primary-key constraint). -/
theorem claim7_member_invariants (dist : DistFn) (cfg : ClusteringConfig)
    (dbEvents : List DBFireEvent) (freshId : ℤ)
    (hotspots : List EnrichedHotspot) :
    (∀ e ∈ (clusterHotspots dist cfg dbEvents freshId hotspots).1,
      e.hotspots ≠ [] ∧ ∀ m ∈ e.hotspots, m ∈ hotspots) ∧
    ((dbEvents.map (·.id)).Nodup →
      ∀ ev ∈ dbEvents,
        (∀ c ∈ finalClusters dist cfg dbEvents hotspots,
          c.2 = some ev → c.1 = []) →
        EventId.db ev.id
          ∉ (clusterHotspots dist cfg dbEvents freshId hotspots).1.map
            (·.id)) := by
  by_cases hb : hotspots.isEmpty
  · unfold clusterHotspots
    rw [if_pos hb]
    exact ⟨fun e he => absurd he (List.not_mem_nil e),
      fun _ _ _ _ h => absurd h (List.not_mem_nil _)⟩
  · have hexp : (clusterHotspots dist cfg dbEvents freshId hotspots).1
        = (buildEvents cfg freshId
            (finalClusters dist cfg dbEvents hotspots)).1 := by
      unfold clusterHotspots
      rw [if_neg hb]
    constructor
    · intro e he
      rw [hexp] at he
      obtain ⟨c, hc, hhs, hne⟩ :=
        buildEvents_events_shape cfg _ freshId e he
      refine ⟨by rw [hhs]; exact hne, ?_⟩
      intro m hm
      rw [hhs] at hm
      exact finalClusters_members dist cfg dbEvents hotspots c hc m hm
    · intro hnodup ev hev hall hmem
      rw [hexp] at hmem
      obtain ⟨e, he, hid⟩ := List.mem_map.mp hmem
      obtain ⟨c, hc, ev2, hdb2, hid2, hne2⟩ :=
        buildEvents_db_id cfg _ freshId e he ev.id hid
      have hev2mem : ev2 ∈ dbEvents := by
        rw [← finalClusters_dbParts dist cfg dbEvents hotspots]
        exact List.mem_filterMap.mpr ⟨c, hc, hdb2⟩
      have heq : ev2 = ev :=
        List.inj_on_of_nodup_map hnodup hev2mem hev hid2
      subst heq
      exact hne2 (hall c hc hdb2)

/-- Witness for C7 at the sample inputs (one store event, one enriched
hotspot, flat distance). -/
theorem claim7_member_invariants_witness :
    (∀ e ∈ (clusterHotspots flatDist sampleClusterCfg [sampleDbEvent] 0
        [sampleEnriched]).1,
      e.hotspots ≠ [] ∧ ∀ m ∈ e.hotspots, m ∈ [sampleEnriched]) ∧
    (([sampleDbEvent].map (·.id)).Nodup →
      ∀ ev ∈ [sampleDbEvent],
        (∀ c ∈ finalClusters flatDist sampleClusterCfg [sampleDbEvent]
            [sampleEnriched],
          c.2 = some ev → c.1 = []) →
        EventId.db ev.id
          ∉ (clusterHotspots flatDist sampleClusterCfg [sampleDbEvent] 0
              [sampleEnriched]).1.map (·.id)) :=
  claim7_member_invariants flatDist sampleClusterCfg [sampleDbEvent] 0
    [sampleEnriched]

/-- When every member of every event belongs to the enriched batch, the
pipeline's new-event count is the whole event list. -/
theorem newEventsCount_all (enriched : List EnrichedHotspot)
    (events : List FireEvent)
    (h : ∀ e ∈ events, ∀ m ∈ e.hotspots, m ∈ enriched) :
    newEventsCount enriched events = events.length := by
  unfold newEventsCount
  have hfil : events.filter (fun e =>
      e.hotspots.length
        == (e.hotspots.filter (fun h => decide (h ∈ enriched))).length)
      = events := by
    rw [List.filter_eq_self]
    intro e he
    have hinner : e.hotspots.filter (fun h => decide (h ∈ enriched))
        = e.hotspots := by
      rw [List.filter_eq_self]
      intro m hm
      exact decide_eq_true (h e he m hm)
    rw [hinner]
    simp
  rw [hfil]

/-- C8: in every run where the clustering stage runs and succeeds,
events_created equals the total number of events returned by clustering
and events_updated is 0, because every returned event's members all
belong to the batch clustering was given and so every event passes the
pipeline's "new event" test.  The hypothesis `henr` covers both
enrichment outcomes: a successful `_enrich_batch`, and a failed one
after which the pipeline synthesizes unenriched wrappers
(pipeline.py line 213) and clusters those. -/
theorem claim8_events_created_counts_all (env : CycleEnv) (dist : DistFn)
    (cfg : ClusteringConfig) (dbEvents : List DBFireEvent) (freshId : ℤ)
    (raw newHs : List RawHotspot) (enriched : List EnrichedHotspot)
    (hing : env.ingest = .ok raw) (hded : env.dedup = .ok newHs)
    (hnz : newHs ≠ [])
    (henr : env.enrich = .ok enriched ∨
      (∃ msg, env.enrich = .error msg ∧
        enriched = newHs.map (fun hs => { hotspot := hs })))
    (hclu : env.cluster
      = .ok (clusterHotspots dist cfg dbEvents freshId enriched).1) :
    (runCycle env).eventsCreated
      = (clusterHotspots dist cfg dbEvents freshId enriched).1.length ∧
    (runCycle env).eventsUpdated = 0 := by
  have hcount : newEventsCount enriched
      (clusterHotspots dist cfg dbEvents freshId enriched).1
      = (clusterHotspots dist cfg dbEvents freshId enriched).1.length := by
    apply newEventsCount_all
    intro e he m hm
    by_cases hb : enriched.isEmpty
    · exfalso
      unfold clusterHotspots at he
      rw [if_pos hb] at he
      cases he
    · have hexp : (clusterHotspots dist cfg dbEvents freshId enriched).1
          = (buildEvents cfg freshId
              (finalClusters dist cfg dbEvents enriched)).1 := by
        unfold clusterHotspots
        rw [if_neg hb]
      rw [hexp] at he
      obtain ⟨c, hc, hhs, -⟩ := buildEvents_events_shape cfg _ freshId e he
      rw [hhs] at hm
      exact finalClusters_members dist cfg dbEvents enriched c hc m hm
  rcases henr with henr | ⟨msg, herr, hsyn⟩
  · unfold runCycle
    rw [hing, hded, henr, hclu]
    dsimp only
    rw [if_neg (by simpa using hnz)]
    split_ifs <;>
      constructor <;>
      simp [hcount]
  · subst hsyn
    unfold runCycle
    rw [hing, hded, herr, hclu]
    dsimp only
    rw [if_neg (by simpa using hnz)]
    split_ifs <;>
      constructor <;>
      simp [hcount]

/-- Witness for C8 at the sample cycle environment. -/
theorem claim8_events_created_counts_all_witness :
    (runCycle sampleCycleEnv).eventsCreated
      = (clusterHotspots flatDist sampleClusterCfg [sampleDbEvent] 0
          [sampleEnriched]).1.length ∧
    (runCycle sampleCycleEnv).eventsUpdated = 0 :=
  claim8_events_created_counts_all sampleCycleEnv flatDist sampleClusterCfg
    [sampleDbEvent] 0 [sampleHotspot] [sampleHotspot] [sampleEnriched]
    rfl rfl (by simp) (Or.inl rfl) rfl

set_option maxHeartbeats 3200000 in
/-- Status characterization on the main path (ingest and dedup both
succeeded, at least one new hotspot): the status is PARTIAL exactly when
errors were recorded, SUCCESS when none were, and never FAILED. -/
theorem runCycle_tail_status (env : CycleEnv) (raw newHs : List RawHotspot)
    (hing : env.ingest = .ok raw) (hded : env.dedup = .ok newHs)
    (hnz : newHs.length ≠ 0) :
    ((runCycle env).status = .partialStatus ↔ (runCycle env).errors ≠ []) ∧
    ((runCycle env).errors = [] → (runCycle env).status = .success) ∧
    (runCycle env).status ≠ .failed := by
  unfold runCycle
  rw [hing, hded]
  dsimp only
  rw [if_neg hnz]
  rcases env.enrich with emsg | enriched <;>
    rcases env.cluster with cmsg | events <;>
    rcases env.classifyPersist with kmsg | kunit <;>
    rcases env.dispatcher with - | dres <;>
    [skip; (rcases dres with dmsg | dcount); skip;
      (rcases dres with dmsg | dcount); skip; (rcases dres with dmsg | dcount);
      skip; (rcases dres with dmsg | dcount); skip;
      (rcases dres with dmsg | dcount); skip; (rcases dres with dmsg | dcount);
      skip; (rcases dres with dmsg | dcount); skip;
      (rcases dres with dmsg | dcount)] <;>
    dsimp only <;>
    split_ifs <;>
    simp_all

/-- C1: the run record's final status is FAILED iff the ingest stage or
the dedup stage itself failed; otherwise it is PARTIAL iff some later
stage recorded an error (and SUCCESS when none did); and a successful
dedup yielding zero new hotspots ends the cycle early with SUCCESS and no
errors. -/
theorem claim1_final_status (env : CycleEnv) :
    ((runCycle env).status = .failed ↔
      (∃ e, env.ingest = .error e) ∨ (∃ e, env.dedup = .error e)) ∧
    ((∀ e, env.ingest ≠ .error e) → (∀ e, env.dedup ≠ .error e) →
      ((runCycle env).status = .partialStatus ↔
        (runCycle env).errors ≠ []) ∧
      ((runCycle env).errors = [] → (runCycle env).status = .success)) ∧
    (∀ raw, env.ingest = .ok raw → env.dedup = .ok [] →
      (runCycle env).status = .success ∧ (runCycle env).errors = []) := by
  rcases hing : env.ingest with imsg | raw
  · have hrc : (runCycle env).status = .failed := by
      unfold runCycle
      rw [hing]
    refine ⟨⟨fun _ => Or.inl ⟨imsg, rfl⟩, fun _ => hrc⟩, ?_, ?_⟩
    · rintro h1 -
      exact absurd rfl (h1 imsg)
    · rintro raw2 hok -
      exact Except.noConfusion hok
  · rcases hded : env.dedup with dmsg | newHs
    · have hrc : (runCycle env).status = .failed := by
        unfold runCycle
        rw [hing, hded]
      refine ⟨⟨fun _ => Or.inr ⟨dmsg, rfl⟩, fun _ => hrc⟩, ?_, ?_⟩
      · rintro - h2
        exact absurd rfl (h2 dmsg)
      · rintro raw2 - hok
        exact Except.noConfusion hok
    · have hok : ¬((∃ e, (Except.ok raw : Except String (List RawHotspot))
          = .error e) ∨
          (∃ e, (Except.ok newHs : Except String (List RawHotspot))
            = .error e)) := by
        rintro (⟨e, he⟩ | ⟨e, he⟩) <;> exact Except.noConfusion he
      by_cases hz : newHs.length = 0
      · have hrc : runCycle env
            = { hotspotsFetched := raw.length, newHotspots := 0,
                status := .success, errors := [] } := by
          unfold runCycle
          rw [hing, hded]
          dsimp only
          rw [if_pos hz]
        refine ⟨⟨fun hf => absurd (hrc ▸ hf) (by simp), fun h => absurd h hok⟩,
          ?_, ?_⟩
        · rintro - -
          rw [hrc]
          constructor
          · constructor
            · intro h
              exact absurd h (by simp)
            · intro h
              exact absurd rfl h
          · intro h
            rfl
        · rintro raw2 - -
          rw [hrc]
          exact ⟨rfl, rfl⟩
      · obtain ⟨hpart, hsucc, hnf⟩ :=
          runCycle_tail_status env raw newHs hing hded hz
        refine ⟨⟨fun hf => absurd hf hnf, fun h => absurd h hok⟩,
          fun _ _ => ⟨hpart, hsucc⟩, ?_⟩
        rintro raw2 - hok2
        rw [Except.ok.injEq] at hok2
        subst hok2
        simp at hz

/-- Witness for C1 at the sample cycle environment (all stages succeed
with one new hotspot). -/
theorem claim1_final_status_witness :
    ((runCycle sampleCycleEnv).status = .failed ↔
      (∃ e, sampleCycleEnv.ingest = .error e) ∨
      (∃ e, sampleCycleEnv.dedup = .error e)) ∧
    ((∀ e, sampleCycleEnv.ingest ≠ .error e) →
      (∀ e, sampleCycleEnv.dedup ≠ .error e) →
      ((runCycle sampleCycleEnv).status = .partialStatus ↔
        (runCycle sampleCycleEnv).errors ≠ []) ∧
      ((runCycle sampleCycleEnv).errors = [] →
        (runCycle sampleCycleEnv).status = .success)) ∧
    (∀ raw, sampleCycleEnv.ingest = .ok raw →
      sampleCycleEnv.dedup = .ok [] →
      (runCycle sampleCycleEnv).status = .success ∧
      (runCycle sampleCycleEnv).errors = []) :=
  claim1_final_status sampleCycleEnv
